import Mathlib

/-!
# CG_OpenGL2: the ray-tracing core of `RayTracing.cpp` and `PhongShading.cpp`

A shallow embedding of the two ray tracers of the repository.

* `float` is read in two ways.  The main definitions take an arbitrary linearly ordered
  field `F` (exact arithmetic, no rounding, no NaN, no infinities; the float literals
  `0.2f`, `0.5f`, `0.1f`, `0.001f`, `1e-6` are the rationals they denote): theorems about
  control flow and comparisons of computed values are stated there, and so are theorems
  that are marked "in exact arithmetic".  Namespace `Binary32` repeats the source lines
  that compute with `float` over `Float32`, where every operation rounds to the nearest
  binary32 value and overflows to an infinity or NaN as IEEE 754 prescribes: it shows
  where the program departs from the exact reading.
* `std::sqrt` / `glm::inversesqrt` and `std::pow` are not field operations: every
  definition that calls them takes the function as an explicit argument (`sqrt`,
  `pow`).  Theorems that need their mathematical meaning are stated at
  `F := ℝ`, `sqrt := Real.sqrt`, `pow := Real.rpow`.
* `bool intersect(ray, float& t, tMin, tMax)` becomes a function to `Option F`:
  `some t` for `true` with the value written to `t`, `none` for `false` (no caller
  reads `t` after `false`).
* The virtual class `Surface` with its two subclasses is the sum type `Surface`; a
  `Surface*` is the surface value it points to.
* The `int` globals `Width`, `Height` and the loop counters `ix`, `iy` are natural
  numbers (the loops only produce non-negative values).  `bufferSizeInt`, `pixelIndexInt`
  and `renderInt` evaluate the `int` expressions of `render` and `ImagePlane::set` in
  32-bit `int`, where a signed overflow is undefined (`none`); theorems about the buffer
  assume `Width * Height * 3 <= INT_MAX`.  The global `std::vector<float> OutputImage` is
  a `List F` passed in and returned; a write outside the vector, undefined in C++, leaves
  the list unchanged.
* `Plane.intersectDiv` is `Plane::intersect` with its division handed in as an argument,
  to state that a result does not depend on it; `hasPixel` reads one pixel of the buffer;
  `specDiscriminant` and `specNearRoot` are the formulas of the specification.
* `EmptyViewer/RayTracing.cpp` lives in namespace `RayTracing`,
  `PhongShading/PhongShading.cpp` in namespace `PhongShading`; `vec3` and `Ray`,
  which are the same in both files, are shared.
-/

namespace CGOpenGL

/-! ## glm::vec3 -/

/-- The type `glm::vec3`. -/
structure Vec3 (F : Type) where
  x : F
  y : F
  z : F
deriving DecidableEq, Repr

namespace Vec3

variable {F : Type} [LinearOrderedField F]

/-- Component-wise sum, `u + v`. -/
def add (u v : Vec3 F) : Vec3 F := ⟨u.x + v.x, u.y + v.y, u.z + v.z⟩

/-- Component-wise difference, `u - v`. -/
def sub (u v : Vec3 F) : Vec3 F := ⟨u.x - v.x, u.y - v.y, u.z - v.z⟩

/-- Component-wise negation, `-v`. -/
def neg (v : Vec3 F) : Vec3 F := ⟨-v.x, -v.y, -v.z⟩

/-- Component-wise product of two vectors, `u * v`. -/
def mul (u v : Vec3 F) : Vec3 F := ⟨u.x * v.x, u.y * v.y, u.z * v.z⟩

/-- Vector times scalar, `v * k`. -/
def scale (v : Vec3 F) (k : F) : Vec3 F := ⟨v.x * k, v.y * k, v.z * k⟩

/-- Scalar times vector, `k * v`. -/
def smul (k : F) (v : Vec3 F) : Vec3 F := ⟨k * v.x, k * v.y, k * v.z⟩

instance : Add (Vec3 F) := ⟨add⟩
instance : Sub (Vec3 F) := ⟨sub⟩
instance : Neg (Vec3 F) := ⟨neg⟩
instance : Mul (Vec3 F) := ⟨mul⟩

/-- The function `glm::dot`. -/
def dot (u v : Vec3 F) : F := u.x * v.x + u.y * v.y + u.z * v.z

/-- The function `glm::length`: `sqrt(dot(v, v))`. -/
def length (sqrt : F → F) (v : Vec3 F) : F := sqrt (dot v v)

/-- The function `glm::normalize`: `v * inversesqrt(dot(v, v))`. -/
def normalize (sqrt : F → F) (v : Vec3 F) : Vec3 F := scale v (1 / sqrt (dot v v))

end Vec3

open Vec3

/-- The constant `FLT_MAX` of `<cfloat>`: `(2 - 2^(-23)) * 2^127`. -/
def FLT_MAX {F : Type} [LinearOrderedField F] : F := (2 ^ 24 - 1) * 2 ^ 104

/-! ## Ray (identical in both files) -/

/-- The class `Ray`: its two public fields. -/
structure Ray (F : Type) where
  origin : Vec3 F
  direction : Vec3 F
deriving DecidableEq, Repr

/-- The constructor `Ray(o, d) : origin(o), direction(normalize(d))`. -/
def Ray.new {F : Type} [LinearOrderedField F] (sqrt : F → F) (o d : Vec3 F) : Ray F :=
  ⟨o, normalize sqrt d⟩

/-- The call `OutputImage.resize(n, v)` of `std::vector`: truncate to `n` entries or pad
with copies of `v`. -/
def vectorResize {F : Type} (img : List F) (n : Nat) (v : F) : List F :=
  img.take n ++ List.replicate (n - img.length) v

/-- The buffer `img` of row length `Width` holds the colour `col` at pixel `(ix, iy)`: the
entries at the indices `(iy * Width + ix) * 3 + 0, 1, 2` exist and are the `x`, `y`, `z`
(R, G, B) components of `col`. -/
def hasPixel {F : Type} (Width : Nat) (img : List F) (ix iy : Nat) (col : Vec3 F) : Prop :=
  img[(iy * Width + ix) * 3]? = some col.x ∧
  img[(iy * Width + ix) * 3 + 1]? = some col.y ∧
  img[(iy * Width + ix) * 3 + 2]? = some col.z

/-- The body shared by the `for` loop of `Scene::trace` in both files, over an arbitrary
intersection test `f`: a reported `tempT` replaces the pair `(t, hitSurface)` exactly
when `tempT < t`. -/
def nearestStep {F α : Type} [LinearOrderedField F] (f : α → Option F)
    (st : F × Option α) (a : α) : F × Option α :=
  match f a with
  | some tempT => if tempT < st.1 then (tempT, some a) else st
  | none => st

/-- The discriminant of the specification (section 4.2): `b * b - a * c` with
`oc = origin - center`, `a = dot(dir, dir)`, `b = dot(oc, dir)`,
`c = dot(oc, oc) - radius^2`. -/
def specDiscriminant {F : Type} [LinearOrderedField F] (center : Vec3 F) (radius : F)
    (ray : Ray F) : F :=
  dot (ray.origin - center) ray.direction * dot (ray.origin - center) ray.direction
    - dot ray.direction ray.direction
      * (dot (ray.origin - center) (ray.origin - center) - radius ^ 2)

/-- The near root of the specification (section 4.2): `(-b - sqrt(discriminant)) / a`. -/
def specNearRoot {F : Type} [LinearOrderedField F] (sqrt : F → F) (center : Vec3 F)
    (radius : F) (ray : Ray F) : F :=
  (-dot (ray.origin - center) ray.direction - sqrt (specDiscriminant center radius ray))
    / dot ray.direction ray.direction

/-! ## EmptyViewer/RayTracing.cpp -/

namespace RayTracing

variable {F : Type} [LinearOrderedField F]

/-- The class `Sphere` with the `color` of its base class `Surface`. -/
structure Sphere (F : Type) where
  center : Vec3 F
  radius : F
  color : Vec3 F
deriving DecidableEq, Repr

/-- The class `Plane` with the `color` of its base class `Surface`. -/
structure Plane (F : Type) where
  normal : Vec3 F
  d : F
  color : Vec3 F
deriving DecidableEq, Repr

/-- The constructor `Plane(n, d, col) : Surface(col), normal(normalize(n)), d(d)`. -/
def Plane.new (sqrt : F → F) (n : Vec3 F) (d : F) (col : Vec3 F) : Plane F :=
  ⟨normalize sqrt n, d, col⟩

/-- The method `Sphere::intersect` (discriminant `b * b - c`, commented `a is 1`). -/
def Sphere.intersect (sqrt : F → F) (s : Sphere F) (ray : Ray F) (tMin tMax : F) :
    Option F :=
  let oc := ray.origin - s.center
  let a := dot ray.direction ray.direction
  let b := dot oc ray.direction
  let c := dot oc oc - s.radius * s.radius
  let discriminant := b * b - c
  if discriminant > 0 then
    let temp := (-b - sqrt discriminant) / a
    if temp < tMax ∧ temp > tMin then some temp else none
  else none

/-- The method `Plane::intersect`. -/
def Plane.intersect (p : Plane F) (ray : Ray F) (tMin tMax : F) : Option F :=
  let denom := dot p.normal ray.direction
  if |denom| > 1 / 1000000 then
    let t := (p.d - dot p.normal ray.origin) / denom
    if t ≥ tMin ∧ t ≤ tMax then some t else none
  else none

/-- The method `Plane::intersect` with its one division `(d - dot(normal, origin)) / denom`
handed in as the operation `div`; `Plane.intersect` is the instance `div := (· / ·)`. -/
def Plane.intersectDiv (div : F → F → F) (p : Plane F) (ray : Ray F) (tMin tMax : F) :
    Option F :=
  let denom := dot p.normal ray.direction
  if |denom| > 1 / 1000000 then
    let t := div (p.d - dot p.normal ray.origin) denom
    if t ≥ tMin ∧ t ≤ tMax then some t else none
  else none

/-- The abstract class `Surface`: a pointer to a surface is a `Sphere` or a `Plane`. -/
inductive Surface (F : Type) where
  | sphere (s : Sphere F)
  | plane (p : Plane F)
deriving DecidableEq, Repr

/-- The field `Surface::color`. -/
def Surface.color : Surface F → Vec3 F
  | .sphere s => s.color
  | .plane p => p.color

/-- The virtual call `surface->intersect(ray, t, tMin, tMax)`. -/
def Surface.intersect (sqrt : F → F) : Surface F → Ray F → F → F → Option F
  | .sphere s, ray, tMin, tMax => s.intersect sqrt ray tMin tMax
  | .plane p, ray, tMin, tMax => p.intersect ray tMin tMax

/-- The class `Camera`. -/
structure Camera (F : Type) where
  position : Vec3 F
  direction : Vec3 F
  focalLength : F
deriving DecidableEq, Repr

/-- The constructor `Camera(pos, dir, focal)`, which normalises `dir`. -/
def Camera.new (sqrt : F → F) (pos dir : Vec3 F) (focal : F) : Camera F :=
  ⟨pos, normalize sqrt dir, focal⟩

/-- The method `Camera::getRay`: the image plane is fixed at `z = -0.1`. -/
def Camera.getRay (sqrt : F → F) (cam : Camera F) (x y : F) : Ray F :=
  Ray.new sqrt cam.position (normalize sqrt ((⟨x, y, 0⟩ : Vec3 F) + ⟨0, 0, -(1 / 10)⟩))

/-- The class `Scene`. -/
structure Scene (F : Type) where
  surfaces : List (Surface F)
  camera : Camera F
deriving DecidableEq, Repr

/-- One iteration of the `for` loop of `Scene::trace` on the pair `(t, hitSurface)`. -/
def Scene.traceStep (sqrt : F → F) (ray : Ray F) (tMin tMax : F)
    (st : F × Option (Surface F)) (surface : Surface F) : F × Option (Surface F) :=
  match surface.intersect sqrt ray tMin tMax with
  | some tempT => if tempT < st.1 then (tempT, some surface) else st
  | none => st

/-- The `for` loop of `Scene::trace`, started from `t = tMax`, `hitSurface = nullptr`:
the final values of `t` and `hitSurface`. -/
def Scene.traceLoop (sqrt : F → F) (surfaces : List (Surface F)) (ray : Ray F)
    (tMin tMax : F) : F × Option (Surface F) :=
  surfaces.foldl (Scene.traceStep sqrt ray tMin tMax) (tMax, none)

/-- The method `Scene::trace`. -/
def Scene.trace (sqrt : F → F) (sc : Scene F) (ray : Ray F) (tMin tMax : F) : Vec3 F :=
  match (Scene.traceLoop sqrt sc.surfaces ray tMin tMax).2 with
  | some hitSurface => hitSurface.color
  | none => ⟨0, 0, 0⟩

/-- The method `ImagePlane::set` on the global `OutputImage` (row length `Width`). -/
def ImagePlane.set (Width : Nat) (OutputImage : List F) (x y : Nat) (color : Vec3 F) :
    List F :=
  ((OutputImage.set ((y * Width + x) * 3) color.x).set ((y * Width + x) * 3 + 1)
    color.y).set ((y * Width + x) * 3 + 2) color.z

/-- The first three lines of the body of the pixel loop of `render`: the primary ray of
pixel `(ix, iy)`. -/
def pixelRay (sqrt : F → F) (scene : Scene F) (Width Height ix iy : Nat) : Ray F :=
  let x : F := (1 / 5 * ((ix : F) + 1 / 2)) / (Width : F) - 1 / 10
  let y : F := (1 / 5 * ((iy : F) + 1 / 2)) / (Height : F) - 1 / 10
  scene.camera.getRay sqrt x y

/-- The body of the pixel loop of `render`: the colour traced for pixel `(ix, iy)`,
`scene.trace(ray, 0.0f, FLT_MAX)`. -/
def pixelColor (sqrt : F → F) (scene : Scene F) (Width Height ix iy : Nat) : Vec3 F :=
  scene.trace sqrt (pixelRay sqrt scene Width Height ix iy) 0 FLT_MAX

/-- The function `render` with the surface list as a parameter: resize the buffer, build
the camera and the scene, run the two nested pixel loops. -/
def renderScene (sqrt : F → F) (surfaces : List (Surface F)) (Width Height : Nat)
    (OutputImage : List F) : List F :=
  let OutputImage := vectorResize OutputImage (Width * Height * 3) 1
  let camera := Camera.new sqrt ⟨0, 0, 0⟩ ⟨0, 0, -1⟩ (1 / 10)
  let scene : Scene F := ⟨surfaces, camera⟩
  (List.range Height).foldl (fun img iy =>
    (List.range Width).foldl (fun img ix =>
      ImagePlane.set Width img ix iy (pixelColor sqrt scene Width Height ix iy)) img)
    OutputImage

/-- The ground plane of `render`: `Plane plane(vec3(0, 1, 0), -2, wcolor)`. -/
def groundPlane (sqrt : F → F) : Plane F := Plane.new sqrt ⟨0, 1, 0⟩ (-2) ⟨1, 1, 1⟩

/-- The surface list of `render`: `{ &sphere1, &sphere2, &sphere3, &plane }`. -/
def sceneSurfaces (sqrt : F → F) : List (Surface F) :=
  [.sphere ⟨⟨-4, 0, -7⟩, 1, ⟨1, 1, 1⟩⟩, .sphere ⟨⟨0, 0, -7⟩, 2, ⟨1, 1, 1⟩⟩,
   .sphere ⟨⟨4, 0, -7⟩, 1, ⟨1, 1, 1⟩⟩, .plane (groundPlane sqrt)]

/-- The function `render` on the globals `Width`, `Height`, `OutputImage`. -/
def render (sqrt : F → F) (Width Height : Nat) (OutputImage : List F) : List F :=
  renderScene sqrt (sceneSurfaces sqrt) Width Height OutputImage

end RayTracing

/-! ## PhongShading/PhongShading.cpp -/

namespace PhongShading

variable {F : Type} [LinearOrderedField F]

/-- The class `Material`. -/
structure Material (F : Type) where
  ka : Vec3 F
  kd : Vec3 F
  ks : Vec3 F
  specularPower : F
deriving DecidableEq, Repr

/-- The class `Light`. -/
structure Light (F : Type) where
  position : Vec3 F
  color : Vec3 F
deriving DecidableEq, Repr

/-- The class `Sphere` with the `material` of its base class `Surface` (the base field
`normal` is `vec3(0)` for a sphere and is never read). -/
structure Sphere (F : Type) where
  center : Vec3 F
  radius : F
  material : Material F
deriving DecidableEq, Repr

/-- The class `Plane` with the `material` and `normal` of its base class `Surface`. -/
structure Plane (F : Type) where
  normal : Vec3 F
  d : F
  material : Material F
deriving DecidableEq, Repr

/-- The constructor `Plane(n, d, mat) : Surface(mat, normalize(n)), d(d)`. -/
def Plane.new (sqrt : F → F) (n : Vec3 F) (d : F) (mat : Material F) : Plane F :=
  ⟨normalize sqrt n, d, mat⟩

/-- The method `Sphere::intersect` (discriminant `b * b - a * c`). -/
def Sphere.intersect (sqrt : F → F) (s : Sphere F) (ray : Ray F) (tMin tMax : F) :
    Option F :=
  let oc := ray.origin - s.center
  let a := dot ray.direction ray.direction
  let b := dot oc ray.direction
  let c := dot oc oc - s.radius * s.radius
  let discriminant := b * b - a * c
  if discriminant > 0 then
    let temp := (-b - sqrt discriminant) / a
    if temp < tMax ∧ temp > tMin then some temp else none
  else none

/-- The method `Sphere::getNormal`. -/
def Sphere.getNormal (sqrt : F → F) (s : Sphere F) (point : Vec3 F) : Vec3 F :=
  normalize sqrt (point - s.center)

/-- The method `Plane::intersect`. -/
def Plane.intersect (p : Plane F) (ray : Ray F) (tMin tMax : F) : Option F :=
  let denom := dot p.normal ray.direction
  if |denom| > 1 / 1000000 then
    let t := (p.d - dot p.normal ray.origin) / denom
    if t ≥ tMin ∧ t ≤ tMax then some t else none
  else none

/-- The method `Plane::intersect` with its one division `(d - dot(normal, origin)) / denom`
handed in as the operation `div`; `Plane.intersect` is the instance `div := (· / ·)`. -/
def Plane.intersectDiv (div : F → F → F) (p : Plane F) (ray : Ray F) (tMin tMax : F) :
    Option F :=
  let denom := dot p.normal ray.direction
  if |denom| > 1 / 1000000 then
    let t := div (p.d - dot p.normal ray.origin) denom
    if t ≥ tMin ∧ t ≤ tMax then some t else none
  else none

/-- The method `Plane::getNormal`. -/
def Plane.getNormal (p : Plane F) (_point : Vec3 F) : Vec3 F := p.normal

/-- The abstract class `Surface`: a pointer to a surface is a `Sphere` or a `Plane`. -/
inductive Surface (F : Type) where
  | sphere (s : Sphere F)
  | plane (p : Plane F)
deriving DecidableEq, Repr

/-- The field `Surface::material`. -/
def Surface.material : Surface F → Material F
  | .sphere s => s.material
  | .plane p => p.material

/-- The virtual call `surface->intersect(ray, t, tMin, tMax)`. -/
def Surface.intersect (sqrt : F → F) : Surface F → Ray F → F → F → Option F
  | .sphere s, ray, tMin, tMax => s.intersect sqrt ray tMin tMax
  | .plane p, ray, tMin, tMax => p.intersect ray tMin tMax

/-- The virtual call `surface->getNormal(point)`. -/
def Surface.getNormal (sqrt : F → F) : Surface F → Vec3 F → Vec3 F
  | .sphere s, point => s.getNormal sqrt point
  | .plane p, point => p.getNormal point

/-- The method `Surface::getColor`: ambient, diffuse and specular term. -/
def Surface.getColor (pow : F → F → F) (s : Surface F) (n l v : Vec3 F) (light : Light F) :
    Vec3 F :=
  s.material.ka * light.color + scale (s.material.kd * light.color) (max 0 (dot n l))
    + scale (s.material.ks * light.color)
        (pow (max 0 (dot (smul (2 * dot n l) n - l) v)) s.material.specularPower)

/-- The method `Surface::shade`; `isect` is its parameter `bool intersect`. -/
def Surface.shade (sqrt : F → F) (pow : F → F → F) (s : Surface F) (ray : Ray F)
    (point n : Vec3 F) (light : Light F) (isect : Bool) : Vec3 F :=
  let v := -normalize sqrt ray.direction
  let l := normalize sqrt (light.position - point)
  if isect then s.material.ka * light.color
  else s.getColor pow n l v light

/-- The class `Camera`. -/
structure Camera (F : Type) where
  position : Vec3 F
  direction : Vec3 F
  focalLength : F
deriving DecidableEq, Repr

/-- The constructor `Camera(pos, dir, focal)`, which normalises `dir`. -/
def Camera.new (sqrt : F → F) (pos dir : Vec3 F) (focal : F) : Camera F :=
  ⟨pos, normalize sqrt dir, focal⟩

/-- The method `Camera::getRay`: the image plane is at `focalLength * direction`. -/
def Camera.getRay (sqrt : F → F) (cam : Camera F) (x y : F) : Ray F :=
  Ray.new sqrt cam.position
    (normalize sqrt ((⟨x, y, 0⟩ : Vec3 F) + smul cam.focalLength cam.direction))

/-- The class `Scene`. -/
structure Scene (F : Type) where
  surfaces : List (Surface F)
  camera : Camera F
  lights : List (Light F)
deriving DecidableEq, Repr

/-- The method `Scene::traceShadow`: `true` at the first surface that intersects. -/
def Scene.traceShadow (sqrt : F → F) : List (Surface F) → Ray F → F → F → Bool
  | [], _, _, _ => false
  | surface :: rest, shadowRay, tMin, tMax =>
    if (surface.intersect sqrt shadowRay tMin tMax).isSome then true
    else Scene.traceShadow sqrt rest shadowRay tMin tMax

/-- One iteration of the `for` loop of `Scene::trace` on the pair `(t, hitSurface)`. -/
def Scene.traceStep (sqrt : F → F) (ray : Ray F) (tMin tMax : F)
    (st : F × Option (Surface F)) (surface : Surface F) : F × Option (Surface F) :=
  match surface.intersect sqrt ray tMin tMax with
  | some tempT => if tempT < st.1 then (tempT, some surface) else st
  | none => st

/-- The `for` loop of `Scene::trace`, started from `t = tMax`, `hitSurface = nullptr`:
the final values of `t` and `hitSurface`. -/
def Scene.traceLoop (sqrt : F → F) (surfaces : List (Surface F)) (ray : Ray F)
    (tMin tMax : F) : F × Option (Surface F) :=
  surfaces.foldl (Scene.traceStep sqrt ray tMin tMax) (tMax, none)

/-- The colour `Scene::trace` computes once the loop has ended with `t` and `hitSurface`
and `light` is `*lights[0]`: hit point, shadow ray, shadow test, shading. -/
def Scene.traceColor (sqrt : F → F) (pow : F → F → F) (surfaces : List (Surface F))
    (light : Light F) (ray : Ray F) (t : F) (hitSurface : Option (Surface F)) : Vec3 F :=
  let hitPoint := ray.origin + scale ray.direction t
  let shadowRay := Ray.new sqrt hitPoint (normalize sqrt (light.position - hitPoint))
  let lightDistance := length sqrt (light.position - hitPoint)
  let isShadow := Scene.traceShadow sqrt surfaces shadowRay (1 / 1000) lightDistance
  match hitSurface with
  | some s => s.shade sqrt pow ray hitPoint (s.getNormal sqrt hitPoint) light isShadow
  | none => ⟨0, 0, 0⟩

/-- The method `Scene::trace`; `none` when `lights` is empty, where `lights[0]` is out of
range. -/
def Scene.trace (sqrt : F → F) (pow : F → F → F) (sc : Scene F) (ray : Ray F)
    (tMin tMax : F) : Option (Vec3 F) :=
  match sc.lights with
  | [] => none
  | light :: _ =>
    let r := Scene.traceLoop sqrt sc.surfaces ray tMin tMax
    some (Scene.traceColor sqrt pow sc.surfaces light ray r.1 r.2)

/-- The method `ImagePlane::set` on the global `OutputImage` (row length `Width`). -/
def ImagePlane.set (Width : Nat) (OutputImage : List F) (x y : Nat) (color : Vec3 F) :
    List F :=
  ((OutputImage.set ((y * Width + x) * 3) color.x).set ((y * Width + x) * 3 + 1)
    color.y).set ((y * Width + x) * 3 + 2) color.z

/-- The first three lines of the body of the pixel loop of `render`: the primary ray of
pixel `(ix, iy)`. -/
def pixelRay (sqrt : F → F) (scene : Scene F) (Width Height ix iy : Nat) : Ray F :=
  let x : F := (1 / 5 * ((ix : F) + 1 / 2)) / (Width : F) - 1 / 10
  let y : F := (1 / 5 * ((iy : F) + 1 / 2)) / (Height : F) - 1 / 10
  scene.camera.getRay sqrt x y

/-- The body of the pixel loop of `render`: the colour traced for pixel `(ix, iy)`,
`scene.trace(ray, 0.0f, FLT_MAX)`; `none` when `trace` is (empty `lights`). -/
def pixelColor (sqrt : F → F) (pow : F → F → F) (scene : Scene F)
    (Width Height ix iy : Nat) : Option (Vec3 F) :=
  scene.trace sqrt pow (pixelRay sqrt scene Width Height ix iy) 0 FLT_MAX

/-- The function `render` with the surface list and the light list as parameters: resize
the buffer, build the camera and the scene, run the two nested pixel loops; `none` as soon
as a `trace` is. -/
def renderScene (sqrt : F → F) (pow : F → F → F) (surfaces : List (Surface F))
    (lights : List (Light F)) (Width Height : Nat) (OutputImage : List F) :
    Option (List F) :=
  let OutputImage := vectorResize OutputImage (Width * Height * 3) 1
  let camera := Camera.new sqrt ⟨0, 0, 0⟩ ⟨0, 0, -1⟩ (1 / 10)
  let scene : Scene F := ⟨surfaces, camera, lights⟩
  (List.range Height).foldlM (fun img iy =>
    (List.range Width).foldlM (fun img ix =>
      (pixelColor sqrt pow scene Width Height ix iy).map (ImagePlane.set Width img ix iy))
      img)
    OutputImage

/-- The surface list of `render`, `{ &sphere1, &sphere2, &sphere3, &plane }`, with the
materials `sphere1Mat`, `sphere2Mat`, `sphere3Mat`, `planeMat`. -/
def sceneSurfaces (sqrt : F → F) : List (Surface F) :=
  [.sphere ⟨⟨-4, 0, -7⟩, 1, ⟨⟨1 / 5, 0, 0⟩, ⟨1, 0, 0⟩, ⟨0, 0, 0⟩, 0⟩⟩,
   .sphere ⟨⟨0, 0, -7⟩, 2, ⟨⟨0, 1 / 5, 0⟩, ⟨0, 1 / 2, 0⟩, ⟨1 / 2, 1 / 2, 1 / 2⟩, 32⟩⟩,
   .sphere ⟨⟨4, 0, -7⟩, 1, ⟨⟨0, 0, 1 / 5⟩, ⟨0, 0, 1⟩, ⟨0, 0, 0⟩, 0⟩⟩,
   .plane (Plane.new sqrt ⟨0, 1, 0⟩ (-2) ⟨⟨1 / 5, 1 / 5, 1 / 5⟩, ⟨1, 1, 1⟩, ⟨0, 0, 0⟩, 0⟩)]

/-- The light list of `render`: `{ &light }` with `Light light(vec3(-4, 4, -3), vec3(1))`. -/
def sceneLights : List (Light F) := [⟨⟨-4, 4, -3⟩, ⟨1, 1, 1⟩⟩]

/-- The function `render` on the globals `Width`, `Height`, `OutputImage`. -/
def render (sqrt : F → F) (pow : F → F → F) (Width Height : Nat) (OutputImage : List F) :
    Option (List F) :=
  renderScene sqrt pow (sceneSurfaces sqrt) sceneLights Width Height OutputImage

end PhongShading

/-! ## The arithmetic of the program: `int` and binary32

The definitions above read `float` as an exact ordered field and `int` as a natural
number.  The definitions of this section read the same source lines with the arithmetic of
the program: `int` expressions that must fit in 32 bits, and `float` operations that round
to the nearest binary32 value after every step. -/

/-- The constant `INT_MAX` of `<climits>` for a 32-bit `int`. -/
def INT_MAX : Nat := 2147483647

/-- The value of an `int` expression with non-negative operands whose exact value is `n`:
`n` when it fits in `int`; signed overflow is undefined, `none`. -/
def intValue (n : Nat) : Option Nat := if n ≤ INT_MAX then some n else none

/-- The `int` product `a * b`. -/
def intMul (a b : Nat) : Option Nat := intValue (a * b)

/-- The `int` sum `a + b`. -/
def intAdd (a b : Nat) : Option Nat := intValue (a + b)

/-- The `int` expression `Width * Height * 3` of `OutputImage.resize(Width * Height * 3,
1.0f)` in `render`. -/
def bufferSizeInt (Width Height : Nat) : Option Nat :=
  (intMul Width Height).bind (fun wh => intMul wh 3)

/-- The `int` expression `(y * Width + x) * 3 + k` of `ImagePlane::set`, `k = 0, 1, 2`. -/
def pixelIndexInt (Width x y k : Nat) : Option Nat :=
  (intMul y Width).bind (fun yw => (intAdd yw x).bind (fun p =>
    (intMul p 3).bind (fun p3 => intAdd p3 k)))

/-- The function `render` of `RayTracing.cpp` with the `int` expression of its first line
evaluated in `int`: undefined, `none`, when `Width * Height * 3` overflows. -/
def RayTracing.renderInt {F : Type} [LinearOrderedField F] (sqrt : F → F)
    (Width Height : Nat) (OutputImage : List F) : Option (List F) :=
  (bufferSizeInt Width Height).map (fun _ => RayTracing.render sqrt Width Height OutputImage)

/-- The function `render` of `PhongShading.cpp` with the `int` expression of its first line
evaluated in `int`: undefined, `none`, when `Width * Height * 3` overflows. -/
def PhongShading.renderInt {F : Type} [LinearOrderedField F] (sqrt : F → F)
    (pow : F → F → F) (Width Height : Nat) (OutputImage : List F) : Option (List F) :=
  (bufferSizeInt Width Height).bind
    (fun _ => PhongShading.render sqrt pow Width Height OutputImage)

namespace Binary32

/-- A value of the C++ type `float` (IEEE 754 binary32): a finite number, an infinity or a
NaN.  The two zeros are not distinguished. -/
inductive Float32 where
  | fin (q : ℚ)
  | inf (negative : Bool)
  | nan
deriving DecidableEq, Repr

/-- The power of two `2 ^ k` for an integer `k`. -/
def pow2 (k : Int) : ℚ :=
  if 0 ≤ k then ((2 ^ k.toNat : Nat) : ℚ) else 1 / ((2 ^ (-k).toNat : Nat) : ℚ)

/-- The number of halvings that bring `n` below 2, with at most `fuel` steps. -/
def log2Fuel : Nat → Nat → Nat
  | 0, _ => 0
  | fuel + 1, n => if n < 2 then 0 else log2Fuel fuel (n / 2) + 1

/-- The integer part of the binary logarithm of `n` (0 for `n = 0`). -/
def natLog2 (n : Nat) : Nat := log2Fuel n n

/-- The integer part of the binary logarithm of `|q|`, for `q ≠ 0`. -/
def ilog2 (q : ℚ) : Int :=
  let k : Int := (natLog2 q.num.natAbs : Int) - (natLog2 q.den : Int)
  if pow2 k ≤ |q| then k else k - 1

/-- The integer nearest to `m`, the even one of the two at a tie. -/
def roundHalfEven (m : ℚ) : Int :=
  let f := Rat.floor m
  if m - f < 1 / 2 then f
  else if 1 / 2 < m - f then f + 1
  else if f % 2 = 0 then f else f + 1

/-- Rounding to binary32, round-to-nearest-even: 24 significant bits, least exponent
`-126` (subnormal numbers below it), overflow to an infinity. -/
def rnd (q : ℚ) : Float32 :=
  if q = 0 then .fin 0
  else
    let e := max (ilog2 q) (-126)
    let ulp := pow2 (e - 23)
    let v := (roundHalfEven (q / ulp) : ℚ) * ulp
    if pow2 128 ≤ |v| then .inf (decide (q < 0)) else .fin v

/-- The bits `2 ^ (i - 1), ..., 2 ^ 0` added to `r` from the top while the square stays at
most `n`. -/
def isqrtAux (n : Nat) : Nat → Nat → Nat
  | 0, r => r
  | i + 1, r =>
    if (r + 2 ^ i) * (r + 2 ^ i) ≤ n then isqrtAux n i (r + 2 ^ i) else isqrtAux n i r

/-- The integer part of the square root of `n`. -/
def isqrt (n : Nat) : Nat := isqrtAux n (natLog2 n / 2 + 1) 0

/-- The `float` sum: the exact sum rounded. -/
def Float32.add : Float32 → Float32 → Float32
  | .fin a, .fin b => rnd (a + b)
  | .fin _, .inf s => .inf s
  | .inf s, .fin _ => .inf s
  | .inf s, .inf t => if s = t then .inf s else .nan
  | _, _ => .nan

/-- The `float` negation. -/
def Float32.neg : Float32 → Float32
  | .fin a => .fin (-a)
  | .inf s => .inf (!s)
  | .nan => .nan

/-- The `float` difference. -/
def Float32.sub (a b : Float32) : Float32 := a.add b.neg

/-- The `float` product: the exact product rounded; `0 * inf` is NaN. -/
def Float32.mul : Float32 → Float32 → Float32
  | .fin a, .fin b => rnd (a * b)
  | .fin a, .inf s => if a = 0 then .nan else .inf (xor (decide (a < 0)) s)
  | .inf s, .fin b => if b = 0 then .nan else .inf (xor s (decide (b < 0)))
  | .inf s, .inf t => .inf (xor s t)
  | _, _ => .nan

/-- The `float` quotient: the exact quotient rounded; `x / 0` is an infinity for `x ≠ 0`
(with the sign of `x`, the zero being taken as `+0`) and NaN for `x = 0`. -/
def Float32.div : Float32 → Float32 → Float32
  | .fin a, .fin b =>
    if b = 0 then (if a = 0 then .nan else .inf (decide (a < 0))) else rnd (a / b)
  | .fin _, .inf _ => .fin 0
  | .inf s, .fin b => .inf (xor s (decide (b < 0)))
  | _, _ => .nan

/-- The function `std::sqrt` on `float`: the exact square root rounded to nearest (found by
comparing `x` with the square of the midpoint of the two neighbouring candidates). -/
def Float32.sqrt : Float32 → Float32
  | .fin q =>
    if q < 0 then .nan
    else if q = 0 then .fin 0
    else
      let e := ilog2 q / 2
      let ulp := pow2 (e - 23)
      let x := q / (ulp * ulp)
      let m := isqrt (Rat.floor x).toNat
      let c : ℚ := (m : ℚ) + 1 / 2
      let r : ℚ :=
        if x < c * c then m
        else if c * c < x then m + 1
        else if m % 2 = 0 then m else m + 1
      .fin (r * ulp)
  | .inf s => if s then .nan else .inf false
  | .nan => .nan

/-- The comparison `a < b` of `float`: false as soon as one side is NaN. -/
def Float32.lt : Float32 → Float32 → Bool
  | .fin a, .fin b => decide (a < b)
  | .fin _, .inf s => !s
  | .inf s, .fin _ => s
  | .inf s, .inf t => s && !t
  | _, _ => false

/-- The function `std::max(a, b)`: `(a < b) ? b : a`. -/
def Float32.max (a b : Float32) : Float32 := if a.lt b then b else a

/-- The function `std::pow` on `float` for a finite base and an exponent that is a natural
number: the exact power rounded (so it overflows to an infinity).  No other case is used
below; they are given NaN. -/
def Float32.pow : Float32 → Float32 → Float32
  | .fin x, .fin y => if y.den = 1 ∧ 0 ≤ y.num then rnd (x ^ y.num.toNat) else .nan
  | _, _ => .nan

instance : Add Float32 := ⟨Float32.add⟩
instance : Sub Float32 := ⟨Float32.sub⟩
instance : Mul Float32 := ⟨Float32.mul⟩
instance : Div Float32 := ⟨Float32.div⟩
instance : Neg Float32 := ⟨Float32.neg⟩
instance : LT Float32 := ⟨fun a b => a.lt b = true⟩
instance (a b : Float32) : Decidable (a < b) := inferInstanceAs (Decidable (a.lt b = true))
instance (n : Nat) : OfNat Float32 n := ⟨rnd (n : ℚ)⟩

/-- The constant `FLT_MAX`. -/
def FLT_MAX : Float32 := .fin ((2 ^ 24 - 1) * 2 ^ 104)

/-- Component-wise sum of `glm::vec3`. -/
def Vec3.add (u v : Vec3 Float32) : Vec3 Float32 := ⟨u.x + v.x, u.y + v.y, u.z + v.z⟩

/-- Component-wise difference of `glm::vec3`. -/
def Vec3.sub (u v : Vec3 Float32) : Vec3 Float32 := ⟨u.x - v.x, u.y - v.y, u.z - v.z⟩

/-- Component-wise product of `glm::vec3`. -/
def Vec3.mul (u v : Vec3 Float32) : Vec3 Float32 := ⟨u.x * v.x, u.y * v.y, u.z * v.z⟩

/-- Vector times scalar, `v * k`. -/
def Vec3.scale (v : Vec3 Float32) (k : Float32) : Vec3 Float32 := ⟨v.x * k, v.y * k, v.z * k⟩

/-- Scalar times vector, `k * v`. -/
def Vec3.smul (k : Float32) (v : Vec3 Float32) : Vec3 Float32 := ⟨k * v.x, k * v.y, k * v.z⟩

instance : Add (Vec3 Float32) := ⟨Vec3.add⟩
instance : Sub (Vec3 Float32) := ⟨Vec3.sub⟩
instance : Mul (Vec3 Float32) := ⟨Vec3.mul⟩

/-- The function `glm::dot`. -/
def Vec3.dot (u v : Vec3 Float32) : Float32 := u.x * v.x + u.y * v.y + u.z * v.z

/-- The function `glm::length`: `sqrt(dot(v, v))`. -/
def Vec3.length (v : Vec3 Float32) : Float32 := (Vec3.dot v v).sqrt

/-- The function `glm::normalize`: `v * inversesqrt(dot(v, v))` with
`inversesqrt(x) = 1 / sqrt(x)`. -/
def Vec3.normalize (v : Vec3 Float32) : Vec3 Float32 :=
  Vec3.scale v (1 / (Vec3.dot v v).sqrt)

/-- The constructor `Ray(o, d) : origin(o), direction(normalize(d))`. -/
def Ray.new (o d : Vec3 Float32) : Ray Float32 := ⟨o, Vec3.normalize d⟩

/-- The method `Sphere::intersect` of `RayTracing.cpp` (discriminant `b * b - c`). -/
def RayTracing.Sphere.intersect (s : RayTracing.Sphere Float32) (ray : Ray Float32)
    (tMin tMax : Float32) : Option Float32 :=
  let oc := ray.origin - s.center
  let a := Vec3.dot ray.direction ray.direction
  let b := Vec3.dot oc ray.direction
  let c := Vec3.dot oc oc - s.radius * s.radius
  let discriminant := b * b - c
  if discriminant > 0 then
    let temp := (-b - discriminant.sqrt) / a
    if temp < tMax ∧ temp > tMin then some temp else none
  else none

/-- The method `Sphere::intersect` of `PhongShading.cpp` (discriminant `b * b - a * c`). -/
def PhongShading.Sphere.intersect (s : PhongShading.Sphere Float32) (ray : Ray Float32)
    (tMin tMax : Float32) : Option Float32 :=
  let oc := ray.origin - s.center
  let a := Vec3.dot ray.direction ray.direction
  let b := Vec3.dot oc ray.direction
  let c := Vec3.dot oc oc - s.radius * s.radius
  let discriminant := b * b - a * c
  if discriminant > 0 then
    let temp := (-b - discriminant.sqrt) / a
    if temp < tMax ∧ temp > tMin then some temp else none
  else none

/-- The field `Surface::material`. -/
def PhongShading.Surface.material : PhongShading.Surface Float32 → PhongShading.Material Float32
  | .sphere s => s.material
  | .plane p => p.material

/-- The method `Surface::getColor`: ambient, diffuse and specular term. -/
def PhongShading.Surface.getColor (s : PhongShading.Surface Float32) (n l v : Vec3 Float32)
    (light : PhongShading.Light Float32) : Vec3 Float32 :=
  (PhongShading.Surface.material s).ka * light.color
    + Vec3.scale ((PhongShading.Surface.material s).kd * light.color)
        (Float32.max 0 (Vec3.dot n l))
    + Vec3.scale ((PhongShading.Surface.material s).ks * light.color)
        (Float32.pow (Float32.max 0 (Vec3.dot (Vec3.smul (2 * Vec3.dot n l) n - l) v))
          (PhongShading.Surface.material s).specularPower)

/-- The constructor `Camera(pos, dir, focal)` of `PhongShading.cpp`, which normalises
`dir`. -/
def PhongShading.Camera.new (pos dir : Vec3 Float32) (focal : Float32) :
    PhongShading.Camera Float32 :=
  ⟨pos, Vec3.normalize dir, focal⟩

/-- The method `Camera::getRay` of `PhongShading.cpp`. -/
def PhongShading.Camera.getRay (cam : PhongShading.Camera Float32) (x y : Float32) :
    Ray Float32 :=
  Ray.new cam.position
    (Vec3.normalize ((⟨x, y, 0⟩ : Vec3 Float32) + Vec3.smul cam.focalLength cam.direction))

/-- The hit point of `Scene::trace`: `ray.origin + ray.direction * t`. -/
def hitPoint (ray : Ray Float32) (t : Float32) : Vec3 Float32 :=
  ray.origin + Vec3.scale ray.direction t

end Binary32

/-! ## Nearest-hit traversal -/

section Nearest

variable {F α : Type} [LinearOrderedField F] (f : α → Option F)

theorem nearestStep_fst_le (st : F × Option α) (a : α) : (nearestStep f st a).1 ≤ st.1 := by
  unfold nearestStep
  cases h : f a with
  | none => simp
  | some t =>
    by_cases c : t < st.1
    · simp [c, le_of_lt c]
    · simp [c]

theorem nearestStep_of_lt (st : F × Option α) (a : α) (t : F) (hf : f a = some t)
    (hlt : t < st.1) : nearestStep f st a = (t, some a) := by
  unfold nearestStep
  rw [hf]
  simp [hlt]

theorem nearestFold_fst_le (l : List α) (st : F × Option α) :
    (l.foldl (nearestStep f) st).1 ≤ st.1 := by
  induction l generalizing st with
  | nil => simp
  | cons a l ih =>
    rw [List.foldl_cons]
    exact le_trans (ih _) (nearestStep_fst_le f st a)

theorem nearestFold_le_hit (l : List α) (st : F × Option α) (a : α) (t : F)
    (ha : a ∈ l) (hf : f a = some t) : (l.foldl (nearestStep f) st).1 ≤ t := by
  induction l generalizing st with
  | nil => simp at ha
  | cons b l ih =>
    rw [List.foldl_cons]
    rcases List.mem_cons.1 ha with rfl | hmem
    · refine le_trans (nearestFold_fst_le f l _) ?_
      unfold nearestStep
      rw [hf]
      by_cases c : t < st.1
      · simp [c]
      · simp [c, not_lt.1 c]
    · exact ih _ hmem

theorem nearestFold_unchanged (l : List α) (st : F × Option α)
    (h : ∀ a ∈ l, ∀ t, f a = some t → st.1 ≤ t) : l.foldl (nearestStep f) st = st := by
  induction l generalizing st with
  | nil => simp
  | cons b l ih =>
    rw [List.foldl_cons]
    have hb : nearestStep f st b = st := by
      unfold nearestStep
      cases hfb : f b with
      | none => simp
      | some t =>
        have := h b (List.mem_cons_self _ _) t hfb
        simp [not_lt.2 this]
    rw [hb]
    exact ih st (fun a ha t hf => h a (List.mem_cons_of_mem _ ha) t hf)

theorem nearestFold_cases (l : List α) (st : F × Option α) :
    l.foldl (nearestStep f) st = st ∨
      ∃ S ∈ l, ∃ t, f S = some t ∧ t < st.1 ∧ l.foldl (nearestStep f) st = (t, some S) := by
  induction l generalizing st with
  | nil => simp
  | cons b l ih =>
    rw [List.foldl_cons]
    have hstep : nearestStep f st b = st ∨
        ∃ t, f b = some t ∧ t < st.1 ∧ nearestStep f st b = (t, some b) := by
      unfold nearestStep
      cases hfb : f b with
      | none => simp
      | some t =>
        by_cases c : t < st.1
        · right; exact ⟨t, rfl, c, by simp [c]⟩
        · left; simp [c]
    rcases hstep with hs | ⟨t, hfb, hlt, hs⟩
    · rw [hs]
      rcases ih st with h | ⟨S, hS, t, hf, hlt, hr⟩
      · exact Or.inl h
      · exact Or.inr ⟨S, List.mem_cons_of_mem _ hS, t, hf, hlt, hr⟩
    · rw [hs]
      rcases ih (t, some b) with h | ⟨S, hS, t', hf, hlt', hr⟩
      · exact Or.inr ⟨b, List.mem_cons_self _ _, t, hfb, hlt, h⟩
      · exact Or.inr ⟨S, List.mem_cons_of_mem _ hS, t', hf, lt_trans hlt' hlt, hr⟩

theorem nearestFold_hit (l : List α) (st : F × Option α)
    (h : ∃ a ∈ l, ∃ t, f a = some t ∧ t < st.1) :
    ∃ S ∈ l, ∃ t, f S = some t ∧ t < st.1 ∧ l.foldl (nearestStep f) st = (t, some S) ∧
      ∀ a ∈ l, ∀ u, f a = some u → t ≤ u := by
  obtain ⟨a, ha, u, hfa, hlt⟩ := h
  rcases nearestFold_cases f l st with h0 | ⟨S, hS, t, hf, hlt', hr⟩
  · have := nearestFold_le_hit f l st a u ha hfa
    rw [h0] at this
    exact absurd hlt (not_lt.2 this)
  · refine ⟨S, hS, t, hf, hlt', hr, fun a' ha' u' hu' => ?_⟩
    have := nearestFold_le_hit f l st a' u' ha' hu'
    rw [hr] at this
    exact this

theorem nearestFold_first (pre post : List α) (S : α) (t : F) (st : F × Option α)
    (hS : f S = some t) (hlt : t < st.1)
    (hpre : ∀ a ∈ pre, ∀ u, f a = some u → t < u)
    (hpost : ∀ a ∈ post, ∀ u, f a = some u → t ≤ u) :
    (pre ++ S :: post).foldl (nearestStep f) st = (t, some S) := by
  rw [List.foldl_append, List.foldl_cons]
  have hmid : nearestStep f (pre.foldl (nearestStep f) st) S = (t, some S) := by
    have hlt2 : t < (pre.foldl (nearestStep f) st).1 := by
      rcases nearestFold_cases f pre st with h0 | ⟨S', hS', t', hf', _, hr⟩
      · rw [h0]; exact hlt
      · rw [hr]; exact hpre S' hS' t' hf'
    exact nearestStep_of_lt f _ S t hS hlt2
  rw [hmid]
  exact nearestFold_unchanged f post (t, some S) hpost

end Nearest

section TraceLoop

variable {F : Type} [LinearOrderedField F]

theorem RayTracing.Scene.traceLoop_flat_eq_fold (sqrt : F → F) (surfaces : List (Surface F))
    (ray : Ray F) (tMin tMax : F) :
    Scene.traceLoop sqrt surfaces ray tMin tMax =
      surfaces.foldl (nearestStep (fun s => s.intersect sqrt ray tMin tMax)) (tMax, none) :=
  rfl

theorem PhongShading.Scene.traceLoop_phong_eq_fold (sqrt : F → F) (surfaces : List (Surface F))
    (ray : Ray F) (tMin tMax : F) :
    Scene.traceLoop sqrt surfaces ray tMin tMax =
      surfaces.foldl (nearestStep (fun s => s.intersect sqrt ray tMin tMax)) (tMax, none) :=
  rfl

end TraceLoop

/-! ## C1: nearest hit -/

/-- C1 as stated fails: a scene whose only surface is the plane `y = -2`, the ray from the
origin straight down and `tMax = 2`.  `Plane::intersect` accepts `t = 2 <= tMax` and reports
the hit, but the loop of `Scene::trace` keeps it only if `tempT < t = tMax`, so no surface is
selected and the result is black, not the plane's colour `(1, 1, 1)`. -/
theorem trace_nearest_hit_counterexample :
    (RayTracing.Surface.plane (⟨⟨0, 1, 0⟩, -2, ⟨1, 1, 1⟩⟩ : RayTracing.Plane ℝ)).intersect
        Real.sqrt ⟨⟨0, 0, 0⟩, ⟨0, -1, 0⟩⟩ 0 2 = some 2 ∧
    (RayTracing.Scene.traceLoop Real.sqrt [.plane ⟨⟨0, 1, 0⟩, -2, ⟨1, 1, 1⟩⟩]
        ⟨⟨0, 0, 0⟩, ⟨0, -1, 0⟩⟩ 0 2).2 = none ∧
    RayTracing.Scene.trace Real.sqrt
        ⟨[.plane ⟨⟨0, 1, 0⟩, -2, ⟨1, 1, 1⟩⟩], ⟨⟨0, 0, 0⟩, ⟨0, 0, -1⟩, 1 / 10⟩⟩
        ⟨⟨0, 0, 0⟩, ⟨0, -1, 0⟩⟩ 0 2 = ⟨0, 0, 0⟩ ∧
    RayTracing.Scene.trace Real.sqrt
        ⟨[.plane ⟨⟨0, 1, 0⟩, -2, ⟨1, 1, 1⟩⟩], ⟨⟨0, 0, 0⟩, ⟨0, 0, -1⟩, 1 / 10⟩⟩
        ⟨⟨0, 0, 0⟩, ⟨0, -1, 0⟩⟩ 0 2 ≠
      (RayTracing.Surface.plane (⟨⟨0, 1, 0⟩, -2, ⟨1, 1, 1⟩⟩ : RayTracing.Plane ℝ)).color := by
  have h : (RayTracing.Surface.plane (⟨⟨0, 1, 0⟩, -2, ⟨1, 1, 1⟩⟩ : RayTracing.Plane ℝ)).intersect
      Real.sqrt ⟨⟨0, 0, 0⟩, ⟨0, -1, 0⟩⟩ 0 2 = some 2 := by
    norm_num [RayTracing.Surface.intersect, RayTracing.Plane.intersect, dot]
  refine ⟨h, ?_, ?_, ?_⟩
  · simp [RayTracing.Scene.traceLoop, RayTracing.Scene.traceStep, h]
  · simp [RayTracing.Scene.trace, RayTracing.Scene.traceLoop, RayTracing.Scene.traceStep, h]
  · simp [RayTracing.Scene.trace, RayTracing.Scene.traceLoop, RayTracing.Scene.traceStep, h,
      RayTracing.Surface.color]

/-- C1 (amended): in both files, if some surface of the list reports a hit with `t < tMax`,
the loop of `Scene::trace` selects a surface `S` of the list whose reported `t` is at most
the `t` reported by every hitting surface, and `trace` returns the colour of `S`
(`RayTracing.cpp`) or the colour `S->shade(...)` computes at `origin + direction * t` for
the light `lights[0]` and the shadow test of that point (`PhongShading.cpp`); if no surface
reports a hit with `t < tMax`, `trace` returns black. -/
theorem trace_nearest_hit {F : Type} [LinearOrderedField F] (sqrt : F → F) (pow : F → F → F) :
    (∀ (sc : RayTracing.Scene F) (ray : Ray F) (tMin tMax : F),
      ((∃ s ∈ sc.surfaces, ∃ t, s.intersect sqrt ray tMin tMax = some t ∧ t < tMax) →
        ∃ S ∈ sc.surfaces, ∃ t, S.intersect sqrt ray tMin tMax = some t ∧
          (∀ s ∈ sc.surfaces, ∀ u, s.intersect sqrt ray tMin tMax = some u → t ≤ u) ∧
          RayTracing.Scene.traceLoop sqrt sc.surfaces ray tMin tMax = (t, some S) ∧
          sc.trace sqrt ray tMin tMax = S.color) ∧
      ((∀ s ∈ sc.surfaces, ∀ t, s.intersect sqrt ray tMin tMax = some t → tMax ≤ t) →
        sc.trace sqrt ray tMin tMax = ⟨0, 0, 0⟩)) ∧
    (∀ (sc : PhongShading.Scene F) (light : PhongShading.Light F)
        (rest : List (PhongShading.Light F)) (ray : Ray F) (tMin tMax : F),
      sc.lights = light :: rest →
      ((∃ s ∈ sc.surfaces, ∃ t, s.intersect sqrt ray tMin tMax = some t ∧ t < tMax) →
        ∃ S ∈ sc.surfaces, ∃ t, S.intersect sqrt ray tMin tMax = some t ∧
          (∀ s ∈ sc.surfaces, ∀ u, s.intersect sqrt ray tMin tMax = some u → t ≤ u) ∧
          PhongShading.Scene.traceLoop sqrt sc.surfaces ray tMin tMax = (t, some S) ∧
          sc.trace sqrt pow ray tMin tMax =
            some (S.shade sqrt pow ray (ray.origin + scale ray.direction t)
              (S.getNormal sqrt (ray.origin + scale ray.direction t)) light
              (PhongShading.Scene.traceShadow sqrt sc.surfaces
                (Ray.new sqrt (ray.origin + scale ray.direction t)
                  (normalize sqrt (light.position - (ray.origin + scale ray.direction t))))
                (1 / 1000)
                (length sqrt (light.position - (ray.origin + scale ray.direction t)))))) ∧
      ((∀ s ∈ sc.surfaces, ∀ t, s.intersect sqrt ray tMin tMax = some t → tMax ≤ t) →
        sc.trace sqrt pow ray tMin tMax = some ⟨0, 0, 0⟩)) := by
  refine ⟨fun sc ray tMin tMax => ⟨fun h => ?_, fun h => ?_⟩,
    fun sc light rest ray tMin tMax hl => ⟨fun h => ?_, fun h => ?_⟩⟩
  · obtain ⟨S, hS, t, hf, _, hr, hmin⟩ :=
      nearestFold_hit (fun s => s.intersect sqrt ray tMin tMax) sc.surfaces (tMax, none) h
    rw [← RayTracing.Scene.traceLoop_flat_eq_fold] at hr
    exact ⟨S, hS, t, hf, hmin, hr, by simp [RayTracing.Scene.trace, hr]⟩
  · have hr := nearestFold_unchanged (fun s => s.intersect sqrt ray tMin tMax) sc.surfaces
      (tMax, none) h
    rw [← RayTracing.Scene.traceLoop_flat_eq_fold] at hr
    simp [RayTracing.Scene.trace, hr]
  · obtain ⟨S, hS, t, hf, _, hr, hmin⟩ :=
      nearestFold_hit (fun s => s.intersect sqrt ray tMin tMax) sc.surfaces (tMax, none) h
    rw [← PhongShading.Scene.traceLoop_phong_eq_fold] at hr
    exact ⟨S, hS, t, hf, hmin, hr,
      by simp [PhongShading.Scene.trace, PhongShading.Scene.traceColor, hl, hr]⟩
  · have hr := nearestFold_unchanged (fun s => s.intersect sqrt ray tMin tMax) sc.surfaces
      (tMax, none) h
    rw [← PhongShading.Scene.traceLoop_phong_eq_fold] at hr
    simp [PhongShading.Scene.trace, PhongShading.Scene.traceColor, hl, hr]

/-- C1, an instance of `trace_nearest_hit`: the plane `y = -2` alone, the ray from the
origin straight down, bounds `0` and `10`: the plane reports `t = 2 < 10` and `trace`
returns its colour. -/
theorem trace_nearest_hit_witness :
    (∃ s ∈ [RayTracing.Surface.plane (⟨⟨0, 1, 0⟩, -2, ⟨1, 1, 1⟩⟩ : RayTracing.Plane ℝ)],
      ∃ t, s.intersect Real.sqrt ⟨⟨0, 0, 0⟩, ⟨0, -1, 0⟩⟩ 0 10 = some t ∧ t < 10) ∧
    RayTracing.Scene.trace Real.sqrt
        ⟨[.plane ⟨⟨0, 1, 0⟩, -2, ⟨1, 1, 1⟩⟩], ⟨⟨0, 0, 0⟩, ⟨0, 0, -1⟩, 1 / 10⟩⟩
        ⟨⟨0, 0, 0⟩, ⟨0, -1, 0⟩⟩ 0 10 = ⟨1, 1, 1⟩ := by
  have hex : ∃ s ∈ [RayTracing.Surface.plane (⟨⟨0, 1, 0⟩, -2, ⟨1, 1, 1⟩⟩ : RayTracing.Plane ℝ)],
      ∃ t, s.intersect Real.sqrt ⟨⟨0, 0, 0⟩, ⟨0, -1, 0⟩⟩ 0 10 = some t ∧ t < 10 :=
    ⟨_, List.mem_singleton_self _, 2,
      by norm_num [RayTracing.Surface.intersect, RayTracing.Plane.intersect, dot],
      by norm_num⟩
  refine ⟨hex, ?_⟩
  obtain ⟨S, hS, t, _, _, _, htr⟩ :=
    ((trace_nearest_hit Real.sqrt Real.rpow).1
      ⟨[.plane ⟨⟨0, 1, 0⟩, -2, ⟨1, 1, 1⟩⟩], ⟨⟨0, 0, 0⟩, ⟨0, 0, -1⟩, 1 / 10⟩⟩
      ⟨⟨0, 0, 0⟩, ⟨0, -1, 0⟩⟩ 0 10).1 hex
  rw [List.mem_singleton.1 hS] at htr
  exact htr

/-! ## C8: shadow traversal -/

/-- C8: `Scene::traceShadow` returns `true` if and only if at least one surface of the list
reports an intersection for `(shadowRay, tMin, tMax)`; it returns `false` on the empty list
and on a list none of whose surfaces intersects. -/
theorem traceShadow_iff_exists_hit {F : Type} [LinearOrderedField F] (sqrt : F → F)
    (surfaces : List (PhongShading.Surface F)) (shadowRay : Ray F) (tMin tMax : F) :
    (PhongShading.Scene.traceShadow sqrt surfaces shadowRay tMin tMax = true ↔
      ∃ s ∈ surfaces, ∃ t, s.intersect sqrt shadowRay tMin tMax = some t) ∧
    PhongShading.Scene.traceShadow sqrt [] shadowRay tMin tMax = false ∧
    ((∀ s ∈ surfaces, s.intersect sqrt shadowRay tMin tMax = none) ↔
      PhongShading.Scene.traceShadow sqrt surfaces shadowRay tMin tMax = false) := by
  have key : ∀ l : List (PhongShading.Surface F),
      PhongShading.Scene.traceShadow sqrt l shadowRay tMin tMax = true ↔
        ∃ s ∈ l, ∃ t, s.intersect sqrt shadowRay tMin tMax = some t := by
    intro l
    induction l with
    | nil => simp [PhongShading.Scene.traceShadow]
    | cons a l ih =>
      unfold PhongShading.Scene.traceShadow
      cases h : a.intersect sqrt shadowRay tMin tMax with
      | none => simp [h, ih]
      | some t => simp [h]
  refine ⟨key surfaces, rfl, ?_⟩
  rw [← Bool.not_eq_true, key]
  constructor
  · rintro h ⟨s, hs, t, ht⟩
    rw [h s hs] at ht
    exact Option.noConfusion ht
  · intro h s hs
    cases hi : s.intersect sqrt shadowRay tMin tMax with
    | none => rfl
    | some t => exact absurd ⟨s, hs, t, hi⟩ h

/-! ## C9: tie-break -/

/-- C9: in both files, if the surface `S` of the list `pre ++ S :: post` reports `t < tMax`,
every surface before it that hits reports more than `t` and every surface after it that
hits reports at least `t` (so `t` is the minimum and `S` is the first to report it, ties
being allowed after `S`), then the loop of `Scene::trace` ends with `hitSurface = S` and
`trace` returns the colour of `S` (`RayTracing.cpp`), resp. the colour computed by
`Scene::trace` for `S` and `t` (`PhongShading.cpp`). -/
theorem trace_tie_break_first {F : Type} [LinearOrderedField F] (sqrt : F → F)
    (pow : F → F → F) :
    (∀ (pre post : List (RayTracing.Surface F)) (S : RayTracing.Surface F)
        (cam : RayTracing.Camera F) (ray : Ray F) (tMin tMax t : F),
      S.intersect sqrt ray tMin tMax = some t → t < tMax →
      (∀ s ∈ pre, ∀ u, s.intersect sqrt ray tMin tMax = some u → t < u) →
      (∀ s ∈ post, ∀ u, s.intersect sqrt ray tMin tMax = some u → t ≤ u) →
      RayTracing.Scene.traceLoop sqrt (pre ++ S :: post) ray tMin tMax = (t, some S) ∧
      RayTracing.Scene.trace sqrt ⟨pre ++ S :: post, cam⟩ ray tMin tMax = S.color) ∧
    (∀ (pre post : List (PhongShading.Surface F)) (S : PhongShading.Surface F)
        (cam : PhongShading.Camera F) (light : PhongShading.Light F)
        (rest : List (PhongShading.Light F)) (ray : Ray F) (tMin tMax t : F),
      S.intersect sqrt ray tMin tMax = some t → t < tMax →
      (∀ s ∈ pre, ∀ u, s.intersect sqrt ray tMin tMax = some u → t < u) →
      (∀ s ∈ post, ∀ u, s.intersect sqrt ray tMin tMax = some u → t ≤ u) →
      PhongShading.Scene.traceLoop sqrt (pre ++ S :: post) ray tMin tMax = (t, some S) ∧
      PhongShading.Scene.trace sqrt pow ⟨pre ++ S :: post, cam, light :: rest⟩ ray tMin tMax =
        some (PhongShading.Scene.traceColor sqrt pow (pre ++ S :: post) light ray t
          (some S))) := by
  constructor
  · intro pre post S cam ray tMin tMax t hS hlt hpre hpost
    have hr : RayTracing.Scene.traceLoop sqrt (pre ++ S :: post) ray tMin tMax = (t, some S) := by
      rw [RayTracing.Scene.traceLoop_flat_eq_fold]
      exact nearestFold_first (fun s => s.intersect sqrt ray tMin tMax) pre post S t
        (tMax, none) hS hlt hpre hpost
    exact ⟨hr, by simp [RayTracing.Scene.trace, hr]⟩
  · intro pre post S cam light rest ray tMin tMax t hS hlt hpre hpost
    have hr : PhongShading.Scene.traceLoop sqrt (pre ++ S :: post) ray tMin tMax =
        (t, some S) := by
      rw [PhongShading.Scene.traceLoop_phong_eq_fold]
      exact nearestFold_first (fun s => s.intersect sqrt ray tMin tMax) pre post S t
        (tMax, none) hS hlt hpre hpost
    exact ⟨hr, by simp [PhongShading.Scene.trace, hr]⟩

/-- C9, an instance of `trace_tie_break_first`: two planes that both report `t = 2` for the
ray from the origin straight down, a red one listed first and a green one second: `trace`
returns red. -/
theorem trace_tie_break_first_witness :
    (RayTracing.Surface.plane (⟨⟨0, 1, 0⟩, -2, ⟨1, 0, 0⟩⟩ : RayTracing.Plane ℝ)).intersect
        Real.sqrt ⟨⟨0, 0, 0⟩, ⟨0, -1, 0⟩⟩ 0 10 = some 2 ∧
    (RayTracing.Surface.plane (⟨⟨0, -1, 0⟩, 2, ⟨0, 1, 0⟩⟩ : RayTracing.Plane ℝ)).intersect
        Real.sqrt ⟨⟨0, 0, 0⟩, ⟨0, -1, 0⟩⟩ 0 10 = some 2 ∧
    RayTracing.Scene.trace Real.sqrt
        ⟨[.plane ⟨⟨0, 1, 0⟩, -2, ⟨1, 0, 0⟩⟩, .plane ⟨⟨0, -1, 0⟩, 2, ⟨0, 1, 0⟩⟩],
          ⟨⟨0, 0, 0⟩, ⟨0, 0, -1⟩, 1 / 10⟩⟩
        ⟨⟨0, 0, 0⟩, ⟨0, -1, 0⟩⟩ 0 10 = ⟨1, 0, 0⟩ := by
  have h1 : (RayTracing.Surface.plane (⟨⟨0, 1, 0⟩, -2, ⟨1, 0, 0⟩⟩ : RayTracing.Plane ℝ)).intersect
      Real.sqrt ⟨⟨0, 0, 0⟩, ⟨0, -1, 0⟩⟩ 0 10 = some 2 := by
    norm_num [RayTracing.Surface.intersect, RayTracing.Plane.intersect, dot]
  have h2 : (RayTracing.Surface.plane (⟨⟨0, -1, 0⟩, 2, ⟨0, 1, 0⟩⟩ : RayTracing.Plane ℝ)).intersect
      Real.sqrt ⟨⟨0, 0, 0⟩, ⟨0, -1, 0⟩⟩ 0 10 = some 2 := by
    norm_num [RayTracing.Surface.intersect, RayTracing.Plane.intersect, dot]
  refine ⟨h1, h2, ?_⟩
  exact ((trace_tie_break_first Real.sqrt Real.rpow).1 []
    [.plane ⟨⟨0, -1, 0⟩, 2, ⟨0, 1, 0⟩⟩] (.plane ⟨⟨0, 1, 0⟩, -2, ⟨1, 0, 0⟩⟩)
    ⟨⟨0, 0, 0⟩, ⟨0, 0, -1⟩, 1 / 10⟩ ⟨⟨0, 0, 0⟩, ⟨0, -1, 0⟩⟩ 0 10 2 h1 (by norm_num)
    (fun s hs => absurd hs (List.not_mem_nil s))
    (fun s hs u hu => by
      rw [List.mem_singleton.1 hs, h2] at hu
      exact le_of_eq (Option.some.inj hu))).2

/-! ## C2: sphere intersection -/

section SphereIntersect

variable {F : Type} [LinearOrderedField F]

theorem PhongShading.Sphere.intersect_phong_eq_spec (sqrt : F → F) (s : Sphere F) (ray : Ray F)
    (tMin tMax : F) :
    s.intersect sqrt ray tMin tMax =
      if 0 < specDiscriminant s.center s.radius ray ∧
          tMin < specNearRoot sqrt s.center s.radius ray ∧
          specNearRoot sqrt s.center s.radius ray < tMax
      then some (specNearRoot sqrt s.center s.radius ray) else none := by
  simp only [Sphere.intersect, specNearRoot, specDiscriminant, pow_two, gt_iff_lt]
  split_ifs <;> first | rfl | tauto

theorem RayTracing.Sphere.intersect_flat_eq_spec (sqrt : F → F) (s : Sphere F) (ray : Ray F)
    (tMin tMax : F) (ha : dot ray.direction ray.direction = 1) :
    s.intersect sqrt ray tMin tMax =
      if 0 < specDiscriminant s.center s.radius ray ∧
          tMin < specNearRoot sqrt s.center s.radius ray ∧
          specNearRoot sqrt s.center s.radius ray < tMax
      then some (specNearRoot sqrt s.center s.radius ray) else none := by
  simp only [Sphere.intersect, specNearRoot, specDiscriminant, pow_two, gt_iff_lt, ha, one_mul]
  split_ifs <;> first | rfl | tauto

end SphereIntersect

section Vec3Lemmas

variable {F : Type} [LinearOrderedField F]

@[simp] theorem Vec3.add_def (u v : Vec3 F) :
    u + v = ⟨u.x + v.x, u.y + v.y, u.z + v.z⟩ := rfl

@[simp] theorem Vec3.sub_def (u v : Vec3 F) :
    u - v = ⟨u.x - v.x, u.y - v.y, u.z - v.z⟩ := rfl

@[simp] theorem Vec3.neg_def (v : Vec3 F) : -v = ⟨-v.x, -v.y, -v.z⟩ := rfl

@[simp] theorem Vec3.mul_def (u v : Vec3 F) :
    u * v = ⟨u.x * v.x, u.y * v.y, u.z * v.z⟩ := rfl

end Vec3Lemmas

/-- C2 as stated fails for `RayTracing.cpp`, whose discriminant is `b * b - c`: the sphere of
radius 5 about the origin and the ray from `(0, 6, 5)` with the non-zero direction
`(0, 0, -2)` (`a = 4`, `b = -10`, `c = 36`).  The code computes `100 - 36 = 64 > 0` and
reports the hit `t = (10 - 8) / 4 = 1/2` for the bounds `(0, 1)`, while the discriminant of
the claim is `100 - 4 * 36 = -44`, for which the claim says there is no hit. -/
theorem sphere_intersect_iff_counterexample :
    (⟨0, 0, -2⟩ : Vec3 ℝ) ≠ ⟨0, 0, 0⟩ ∧
    RayTracing.Sphere.intersect Real.sqrt ⟨⟨0, 0, 0⟩, 5, ⟨1, 1, 1⟩⟩
        ⟨⟨0, 6, 5⟩, ⟨0, 0, -2⟩⟩ 0 1 = some (1 / 2) ∧
    ¬ (0 < specDiscriminant (⟨0, 0, 0⟩ : Vec3 ℝ) 5 ⟨⟨0, 6, 5⟩, ⟨0, 0, -2⟩⟩) := by
  have h64 : Real.sqrt 64 = 8 := by
    rw [Real.sqrt_eq_iff_mul_self_eq] <;> norm_num
  refine ⟨by simp, ?_, ?_⟩
  · norm_num [RayTracing.Sphere.intersect, dot, h64]
  · norm_num [specDiscriminant, dot]

/-- C2 (amended): for every sphere, every ray with non-zero direction and every `tMin`,
`tMax`, with `oc = origin - center`, `a = dot(dir, dir)`, `b = dot(oc, dir)`,
`c = dot(oc, oc) - radius^2`, `discriminant = b * b - a * c` and
`t = (-b - sqrt(discriminant)) / a`: `Sphere::intersect` of `PhongShading.cpp` reports a hit
if and only if `discriminant > 0` and `tMin < t < tMax`, and the reported parameter is `t`;
`Sphere::intersect` of `RayTracing.cpp` (discriminant `b * b - c`) does so for every ray
with `dot(dir, dir) = 1`, which is what the constructor `Ray` establishes. -/
theorem sphere_intersect_iff {F : Type} [LinearOrderedField F] (sqrt : F → F) :
    (∀ (s : PhongShading.Sphere F) (ray : Ray F) (tMin tMax : F),
      ray.direction ≠ ⟨0, 0, 0⟩ →
      ((∃ t, s.intersect sqrt ray tMin tMax = some t) ↔
        0 < specDiscriminant s.center s.radius ray ∧
          tMin < specNearRoot sqrt s.center s.radius ray ∧
          specNearRoot sqrt s.center s.radius ray < tMax) ∧
      (∀ t, s.intersect sqrt ray tMin tMax = some t →
        t = specNearRoot sqrt s.center s.radius ray)) ∧
    (∀ (s : RayTracing.Sphere F) (ray : Ray F) (tMin tMax : F),
      dot ray.direction ray.direction = 1 →
      ((∃ t, s.intersect sqrt ray tMin tMax = some t) ↔
        0 < specDiscriminant s.center s.radius ray ∧
          tMin < specNearRoot sqrt s.center s.radius ray ∧
          specNearRoot sqrt s.center s.radius ray < tMax) ∧
      (∀ t, s.intersect sqrt ray tMin tMax = some t →
        t = specNearRoot sqrt s.center s.radius ray)) := by
  constructor
  · intro s ray tMin tMax _
    rw [PhongShading.Sphere.intersect_phong_eq_spec]
    split_ifs with h
    · exact ⟨⟨fun _ => h, fun _ => ⟨_, rfl⟩⟩, fun t ht => (Option.some.inj ht).symm⟩
    · exact ⟨⟨fun ⟨t, ht⟩ => ht.elim, fun h' => absurd h' h⟩, fun t ht => ht.elim⟩
  · intro s ray tMin tMax ha
    rw [RayTracing.Sphere.intersect_flat_eq_spec sqrt s ray tMin tMax ha]
    split_ifs with h
    · exact ⟨⟨fun _ => h, fun _ => ⟨_, rfl⟩⟩, fun t ht => (Option.some.inj ht).symm⟩
    · exact ⟨⟨fun ⟨t, ht⟩ => ht.elim, fun h' => absurd h' h⟩, fun t ht => ht.elim⟩

/-- C2, an instance of `sphere_intersect_iff`: the sphere of radius 1 about the origin and
the ray from `(0, 0, 5)` with direction `(0, 0, -1)`: every hit `RayTracing.cpp` reports
for the bounds `(0, 10)` has the parameter of the specification, which is `4`. -/
theorem sphere_intersect_iff_witness :
    dot (⟨0, 0, -1⟩ : Vec3 ℝ) ⟨0, 0, -1⟩ = 1 ∧
    specNearRoot Real.sqrt (⟨0, 0, 0⟩ : Vec3 ℝ) 1 ⟨⟨0, 0, 5⟩, ⟨0, 0, -1⟩⟩ = 4 ∧
    ((∃ t, RayTracing.Sphere.intersect Real.sqrt ⟨⟨0, 0, 0⟩, 1, ⟨1, 1, 1⟩⟩
        ⟨⟨0, 0, 5⟩, ⟨0, 0, -1⟩⟩ 0 10 = some t) ↔
      0 < specDiscriminant (⟨0, 0, 0⟩ : Vec3 ℝ) 1 ⟨⟨0, 0, 5⟩, ⟨0, 0, -1⟩⟩ ∧
        0 < specNearRoot Real.sqrt (⟨0, 0, 0⟩ : Vec3 ℝ) 1 ⟨⟨0, 0, 5⟩, ⟨0, 0, -1⟩⟩ ∧
        specNearRoot Real.sqrt (⟨0, 0, 0⟩ : Vec3 ℝ) 1 ⟨⟨0, 0, 5⟩, ⟨0, 0, -1⟩⟩ < 10) := by
  have ha : dot (⟨0, 0, -1⟩ : Vec3 ℝ) ⟨0, 0, -1⟩ = 1 := by norm_num [dot]
  refine ⟨ha, ?_, ((sphere_intersect_iff Real.sqrt).2 ⟨⟨0, 0, 0⟩, 1, ⟨1, 1, 1⟩⟩
    ⟨⟨0, 0, 5⟩, ⟨0, 0, -1⟩⟩ 0 10 ha).1⟩
  norm_num [specNearRoot, specDiscriminant, dot]

/-! ## C3: plane intersection -/

/-- C3 as stated fails: the upper bound of `Plane::intersect` is `tMax`, not the offset `d`.
For the plane `y = -2` (`d = -2`) and the ray from the origin straight down, `denom = -1`
and `t = 2`; with the bounds `(0, 10)` both files report the hit, although
`tMin <= t <= d` is `0 <= 2 <= -2`, which is false. -/
theorem plane_intersect_iff_counterexample :
    |dot (⟨0, 1, 0⟩ : Vec3 ℝ) ⟨0, -1, 0⟩| > 1 / 1000000 ∧
    ((-2 : ℝ) - dot (⟨0, 1, 0⟩ : Vec3 ℝ) ⟨0, 0, 0⟩) / dot (⟨0, 1, 0⟩ : Vec3 ℝ) ⟨0, -1, 0⟩ = 2 ∧
    RayTracing.Plane.intersect (⟨⟨0, 1, 0⟩, -2, ⟨1, 1, 1⟩⟩ : RayTracing.Plane ℝ)
        ⟨⟨0, 0, 0⟩, ⟨0, -1, 0⟩⟩ 0 10 = some 2 ∧
    PhongShading.Plane.intersect
        (⟨⟨0, 1, 0⟩, -2, ⟨⟨0, 0, 0⟩, ⟨1, 1, 1⟩, ⟨0, 0, 0⟩, 0⟩⟩ : PhongShading.Plane ℝ)
        ⟨⟨0, 0, 0⟩, ⟨0, -1, 0⟩⟩ 0 10 = some 2 ∧
    ¬ ((0 : ℝ) ≤ 2 ∧ (2 : ℝ) ≤ -2) := by
  refine ⟨?_, ?_, ?_, ?_, ?_⟩
  · norm_num [dot]
  · norm_num [dot]
  · norm_num [RayTracing.Plane.intersect, dot]
  · norm_num [PhongShading.Plane.intersect, dot]
  · norm_num

/-- C3 (amended): in both files, for every plane (normal `n`, offset `d`), every ray and
every `tMin`, `tMax`, with `denom = dot(n, ray.direction)`: if `|denom| <= 1e-6` there is no
hit; otherwise, with `t = (d - dot(n, ray.origin)) / denom`, `Plane::intersect` reports a hit
if and only if `tMin <= t <= tMax` (both bounds inclusive). -/
theorem plane_intersect_iff {F : Type} [LinearOrderedField F] :
    (∀ (p : RayTracing.Plane F) (ray : Ray F) (tMin tMax : F),
      (|dot p.normal ray.direction| ≤ 1 / 1000000 → p.intersect ray tMin tMax = none) ∧
      (1 / 1000000 < |dot p.normal ray.direction| →
        ((∃ t, p.intersect ray tMin tMax = some t) ↔
          tMin ≤ (p.d - dot p.normal ray.origin) / dot p.normal ray.direction ∧
          (p.d - dot p.normal ray.origin) / dot p.normal ray.direction ≤ tMax))) ∧
    (∀ (p : PhongShading.Plane F) (ray : Ray F) (tMin tMax : F),
      (|dot p.normal ray.direction| ≤ 1 / 1000000 → p.intersect ray tMin tMax = none) ∧
      (1 / 1000000 < |dot p.normal ray.direction| →
        ((∃ t, p.intersect ray tMin tMax = some t) ↔
          tMin ≤ (p.d - dot p.normal ray.origin) / dot p.normal ray.direction ∧
          (p.d - dot p.normal ray.origin) / dot p.normal ray.direction ≤ tMax))) := by
  constructor
  · intro p ray tMin tMax
    constructor
    · intro h
      simp only [RayTracing.Plane.intersect, gt_iff_lt, not_lt.2 h, if_false]
    · intro h
      simp only [RayTracing.Plane.intersect, gt_iff_lt, h, if_true, ge_iff_le]
      split_ifs with c
      · exact ⟨fun _ => c, fun _ => ⟨_, rfl⟩⟩
      · exact ⟨fun ⟨t, ht⟩ => ht.elim, fun c' => absurd c' c⟩
  · intro p ray tMin tMax
    constructor
    · intro h
      simp only [PhongShading.Plane.intersect, gt_iff_lt, not_lt.2 h, if_false]
    · intro h
      simp only [PhongShading.Plane.intersect, gt_iff_lt, h, if_true, ge_iff_le]
      split_ifs with c
      · exact ⟨fun _ => c, fun _ => ⟨_, rfl⟩⟩
      · exact ⟨fun ⟨t, ht⟩ => ht.elim, fun c' => absurd c' c⟩

/-- C3, an instance of `plane_intersect_iff`: the plane `y = -2` and the ray from the origin
straight down have `|denom| = 1 > 1e-6`, so a hit for the bounds `(0, 10)` is the same as
`0 <= t <= 10` for `t = (d - dot(n, origin)) / denom`; a ray along the plane
(`denom = 0`) reports no hit. -/
theorem plane_intersect_iff_witness :
    (1 / 1000000 < |dot (⟨0, 1, 0⟩ : Vec3 ℝ) ⟨0, -1, 0⟩| ∧
      ((∃ t, RayTracing.Plane.intersect (⟨⟨0, 1, 0⟩, -2, ⟨1, 1, 1⟩⟩ : RayTracing.Plane ℝ)
          ⟨⟨0, 0, 0⟩, ⟨0, -1, 0⟩⟩ 0 10 = some t) ↔
        (0 : ℝ) ≤ (-2 - dot (⟨0, 1, 0⟩ : Vec3 ℝ) ⟨0, 0, 0⟩) / dot (⟨0, 1, 0⟩ : Vec3 ℝ) ⟨0, -1, 0⟩ ∧
        (-2 - dot (⟨0, 1, 0⟩ : Vec3 ℝ) ⟨0, 0, 0⟩) / dot (⟨0, 1, 0⟩ : Vec3 ℝ) ⟨0, -1, 0⟩ ≤ 10)) ∧
    (|dot (⟨0, 1, 0⟩ : Vec3 ℝ) ⟨1, 0, 0⟩| ≤ 1 / 1000000 ∧
      RayTracing.Plane.intersect (⟨⟨0, 1, 0⟩, -2, ⟨1, 1, 1⟩⟩ : RayTracing.Plane ℝ)
        ⟨⟨0, 0, 0⟩, ⟨1, 0, 0⟩⟩ 0 10 = none) := by
  have h1 : 1 / 1000000 < |dot (⟨0, 1, 0⟩ : Vec3 ℝ) ⟨0, -1, 0⟩| := by norm_num [dot]
  have h2 : |dot (⟨0, 1, 0⟩ : Vec3 ℝ) ⟨1, 0, 0⟩| ≤ 1 / 1000000 := by norm_num [dot]
  exact ⟨⟨h1, ((plane_intersect_iff.1 (⟨⟨0, 1, 0⟩, -2, ⟨1, 1, 1⟩⟩ : RayTracing.Plane ℝ)
      ⟨⟨0, 0, 0⟩, ⟨0, -1, 0⟩⟩ 0 10).2 h1)⟩,
    ⟨h2, ((plane_intersect_iff.1 (⟨⟨0, 1, 0⟩, -2, ⟨1, 1, 1⟩⟩ : RayTracing.Plane ℝ)
      ⟨⟨0, 0, 0⟩, ⟨1, 0, 0⟩⟩ 0 10).1 h2)⟩⟩

/-! ## C5: occluded points are ambient only -/

/-- C5: for every scene whose first light is `light` and every primary ray, if the loop of
`Scene::trace` ends with the nearest hit `S` at parameter `t` (point
`p = origin + direction * t`) and `traceShadow` on the ray from `p` toward the light with
`tMin = 0.001` and `tMax = |light.position - p|` returns `true`, then `trace` returns exactly
`S.material.ka * light.color` (component-wise). -/
theorem trace_occluded_ambient {F : Type} [LinearOrderedField F] (sqrt : F → F)
    (pow : F → F → F) (sc : PhongShading.Scene F) (light : PhongShading.Light F)
    (rest : List (PhongShading.Light F)) (ray : Ray F) (tMin tMax t : F)
    (S : PhongShading.Surface F) (hl : sc.lights = light :: rest)
    (hhit : PhongShading.Scene.traceLoop sqrt sc.surfaces ray tMin tMax = (t, some S))
    (hsh : PhongShading.Scene.traceShadow sqrt sc.surfaces
      (Ray.new sqrt (ray.origin + scale ray.direction t)
        (normalize sqrt (light.position - (ray.origin + scale ray.direction t))))
      (1 / 1000) (length sqrt (light.position - (ray.origin + scale ray.direction t)))
        = true) :
    sc.trace sqrt pow ray tMin tMax = some (S.material.ka * light.color) := by
  unfold PhongShading.Scene.trace
  rw [hl]
  simp only [hhit, PhongShading.Scene.traceColor, hsh, PhongShading.Surface.shade, if_true]

/-- C5, an instance of `trace_occluded_ambient`: the ground plane `y = -2` and a second
plane `y = 1`, the light at `(0, 4, 0)`, the primary ray from the origin straight down.  The
nearest hit is the ground plane at `t = 2`, the shadow ray from `(0, -2, 0)` meets the plane
`y = 1` at `t = 3` within `(0.001, 6)`, and `trace` returns the ambient colour
`(0.2, 0.2, 0.2)` of the ground plane. -/
theorem trace_occluded_ambient_witness :
    PhongShading.Scene.traceLoop Real.sqrt
        [.plane ⟨⟨0, 1, 0⟩, -2, ⟨⟨1 / 5, 1 / 5, 1 / 5⟩, ⟨1, 1, 1⟩, ⟨0, 0, 0⟩, 0⟩⟩,
          .plane ⟨⟨0, 1, 0⟩, 1, ⟨⟨0, 0, 0⟩, ⟨1, 0, 0⟩, ⟨0, 0, 0⟩, 0⟩⟩]
        ⟨⟨0, 0, 0⟩, ⟨0, -1, 0⟩⟩ 0 10 =
      (2, some (.plane ⟨⟨0, 1, 0⟩, -2, ⟨⟨1 / 5, 1 / 5, 1 / 5⟩, ⟨1, 1, 1⟩, ⟨0, 0, 0⟩, 0⟩⟩)) ∧
    PhongShading.Scene.trace Real.sqrt Real.rpow
        ⟨[.plane ⟨⟨0, 1, 0⟩, -2, ⟨⟨1 / 5, 1 / 5, 1 / 5⟩, ⟨1, 1, 1⟩, ⟨0, 0, 0⟩, 0⟩⟩,
          .plane ⟨⟨0, 1, 0⟩, 1, ⟨⟨0, 0, 0⟩, ⟨1, 0, 0⟩, ⟨0, 0, 0⟩, 0⟩⟩],
          ⟨⟨0, 0, 0⟩, ⟨0, 0, -1⟩, 1 / 10⟩, [⟨⟨0, 4, 0⟩, ⟨1, 1, 1⟩⟩]⟩
        ⟨⟨0, 0, 0⟩, ⟨0, -1, 0⟩⟩ 0 10 = some ⟨1 / 5, 1 / 5, 1 / 5⟩ := by
  have h36 : Real.sqrt 36 = 6 := by
    rw [Real.sqrt_eq_iff_mul_self_eq] <;> norm_num
  have hhit : PhongShading.Scene.traceLoop Real.sqrt
      [.plane ⟨⟨0, 1, 0⟩, -2, ⟨⟨1 / 5, 1 / 5, 1 / 5⟩, ⟨1, 1, 1⟩, ⟨0, 0, 0⟩, 0⟩⟩,
        .plane ⟨⟨0, 1, 0⟩, 1, ⟨⟨0, 0, 0⟩, ⟨1, 0, 0⟩, ⟨0, 0, 0⟩, 0⟩⟩]
      ⟨⟨0, 0, 0⟩, ⟨0, -1, 0⟩⟩ 0 10 =
      (2, some (.plane ⟨⟨0, 1, 0⟩, -2, ⟨⟨1 / 5, 1 / 5, 1 / 5⟩, ⟨1, 1, 1⟩, ⟨0, 0, 0⟩, 0⟩⟩)) := by
    norm_num [PhongShading.Scene.traceLoop, PhongShading.Scene.traceStep,
      PhongShading.Surface.intersect, PhongShading.Plane.intersect, dot]
  refine ⟨hhit, ?_⟩
  have h := trace_occluded_ambient Real.sqrt Real.rpow
    ⟨[.plane ⟨⟨0, 1, 0⟩, -2, ⟨⟨1 / 5, 1 / 5, 1 / 5⟩, ⟨1, 1, 1⟩, ⟨0, 0, 0⟩, 0⟩⟩,
      .plane ⟨⟨0, 1, 0⟩, 1, ⟨⟨0, 0, 0⟩, ⟨1, 0, 0⟩, ⟨0, 0, 0⟩, 0⟩⟩],
      ⟨⟨0, 0, 0⟩, ⟨0, 0, -1⟩, 1 / 10⟩, [⟨⟨0, 4, 0⟩, ⟨1, 1, 1⟩⟩]⟩
    ⟨⟨0, 4, 0⟩, ⟨1, 1, 1⟩⟩ [] ⟨⟨0, 0, 0⟩, ⟨0, -1, 0⟩⟩ 0 10 2
    (.plane ⟨⟨0, 1, 0⟩, -2, ⟨⟨1 / 5, 1 / 5, 1 / 5⟩, ⟨1, 1, 1⟩, ⟨0, 0, 0⟩, 0⟩⟩) rfl hhit
    (by
      norm_num [PhongShading.Scene.traceShadow, PhongShading.Surface.intersect,
        PhongShading.Plane.intersect, dot, Ray.new, Vec3.normalize, Vec3.length, Vec3.scale,
        h36])
  rw [h]
  norm_num [PhongShading.Surface.material]

/-! ## C6, C7: the Phong terms -/

/-- C6 (amended): in exact arithmetic, where the light colour and the specular factor
`pow(max(0, dot(2 * dot(n, l) * n - l, v)), specularPower)` are finite numbers (no
overflow, no NaN): for every surface whose material has `ks = (0, 0, 0)`, every light and
every `n`, `l`, `v` with `dot(n, l) = 1`, `Surface::getColor` returns
`ka * light.color + kd * light.color` (component-wise), whatever `v` is; and so does
`Surface::shade` for an unshadowed point whose normal `n` and light direction
`l = normalize(light.position - point)` satisfy `dot(n, l) = 1`. -/
theorem getColor_facing_light {F : Type} [LinearOrderedField F] (sqrt : F → F)
    (pow : F → F → F) (s : PhongShading.Surface F) (light : PhongShading.Light F)
    (hks : s.material.ks = ⟨0, 0, 0⟩) :
    (∀ n l v : Vec3 F, dot n l = 1 →
      s.getColor pow n l v light =
        s.material.ka * light.color + s.material.kd * light.color) ∧
    (∀ (ray : Ray F) (point n : Vec3 F),
      dot n (normalize sqrt (light.position - point)) = 1 →
      s.shade sqrt pow ray point n light false =
        s.material.ka * light.color + s.material.kd * light.color) := by
  have key : ∀ n l v : Vec3 F, dot n l = 1 →
      s.getColor pow n l v light =
        s.material.ka * light.color + s.material.kd * light.color := by
    intro n l v hnl
    simp [PhongShading.Surface.getColor, hks, hnl, Vec3.scale]
  refine ⟨key, fun ray point n h => ?_⟩
  simp only [PhongShading.Surface.shade, Bool.false_eq_true, if_false]
  exact key _ _ _ h

/-- C6, an instance of `getColor_facing_light`: the ground plane's material of `render`
(`ka = 0.2`, `kd = 1`, `ks = 0`, shininess 0), white light, `n = l = (0, 1, 0)`: the colour
is `(1.2, 1.2, 1.2)`. -/
theorem getColor_facing_light_witness :
    dot (⟨0, 1, 0⟩ : Vec3 ℝ) ⟨0, 1, 0⟩ = 1 ∧
    PhongShading.Surface.getColor Real.rpow
        (.plane ⟨⟨0, 1, 0⟩, -2, ⟨⟨1 / 5, 1 / 5, 1 / 5⟩, ⟨1, 1, 1⟩, ⟨0, 0, 0⟩, 0⟩⟩)
        ⟨0, 1, 0⟩ ⟨0, 1, 0⟩ ⟨0, 0, 1⟩ ⟨⟨-4, 4, -3⟩, ⟨1, 1, 1⟩⟩ =
      (⟨6 / 5, 6 / 5, 6 / 5⟩ : Vec3 ℝ) := by
  have hd : dot (⟨0, 1, 0⟩ : Vec3 ℝ) ⟨0, 1, 0⟩ = 1 := by norm_num [dot]
  refine ⟨hd, ?_⟩
  rw [(getColor_facing_light Real.sqrt Real.rpow
    (.plane ⟨⟨0, 1, 0⟩, -2, ⟨⟨1 / 5, 1 / 5, 1 / 5⟩, ⟨1, 1, 1⟩, ⟨0, 0, 0⟩, 0⟩⟩)
    ⟨⟨-4, 4, -3⟩, ⟨1, 1, 1⟩⟩ rfl).1 ⟨0, 1, 0⟩ ⟨0, 1, 0⟩ ⟨0, 0, 1⟩ hd]
  norm_num [PhongShading.Surface.material]

/-- C7 as stated fails: the specular term is not zero on back-facing geometry.  With the
material of `sphere2` in `render` (`ks = 0.5`, shininess 32), white light and the unit
vectors `n = (0, 0, 1)`, `l = (0.8, 0, -0.6)`, `v = (-0.8, 0, 0.6)`, `dot(n, l) = -0.6 < 0`,
the reflected vector is `(-0.8, 0, -0.6)`, its dot product with `v` is `0.28 > 0`, and
`getColor` adds `0.5 * 0.28^32 > 0` to every channel, so the result is not
`ka * light.color`. -/
theorem getColor_back_facing_counterexample :
    dot (⟨0, 0, 1⟩ : Vec3 ℝ) ⟨0, 0, 1⟩ = 1 ∧
    dot (⟨4 / 5, 0, -(3 / 5)⟩ : Vec3 ℝ) ⟨4 / 5, 0, -(3 / 5)⟩ = 1 ∧
    dot (⟨-(4 / 5), 0, 3 / 5⟩ : Vec3 ℝ) ⟨-(4 / 5), 0, 3 / 5⟩ = 1 ∧
    dot (⟨0, 0, 1⟩ : Vec3 ℝ) ⟨4 / 5, 0, -(3 / 5)⟩ < 0 ∧
    PhongShading.Surface.getColor Real.rpow
        (.sphere ⟨⟨0, 0, -7⟩, 2, ⟨⟨0, 1 / 5, 0⟩, ⟨0, 1 / 2, 0⟩, ⟨1 / 2, 1 / 2, 1 / 2⟩, 32⟩⟩)
        ⟨0, 0, 1⟩ ⟨4 / 5, 0, -(3 / 5)⟩ ⟨-(4 / 5), 0, 3 / 5⟩ ⟨⟨-4, 4, -3⟩, ⟨1, 1, 1⟩⟩ ≠
      (⟨0, 1 / 5, 0⟩ : Vec3 ℝ) * ⟨1, 1, 1⟩ := by
  refine ⟨by norm_num [dot], by norm_num [dot], by norm_num [dot], by norm_num [dot], ?_⟩
  intro h
  have hx := congrArg Vec3.x h
  norm_num [PhongShading.Surface.getColor, PhongShading.Surface.material, dot, Vec3.scale,
    Vec3.smul] at hx

/-- C7 (amended): for every surface, light and vectors `n`, `l`, `v` with `dot(n, l) < 0`,
the diffuse factor `max(0, dot(n, l))` is `0`, so `getColor` returns
`ka * light.color + kd * light.color * 0
  + ks * light.color * pow(max(0, dot(2 * dot(n, l) * n - l, v)), specularPower)`:
the diffuse term carries the factor 0, while the specular term does not depend on the sign
of `dot(n, l)` and is not zero in general. -/
theorem getColor_back_facing {F : Type} [LinearOrderedField F] (pow : F → F → F)
    (s : PhongShading.Surface F) (light : PhongShading.Light F) (n l v : Vec3 F)
    (hnl : dot n l < 0) :
    max 0 (dot n l) = 0 ∧
    s.getColor pow n l v light =
      s.material.ka * light.color + scale (s.material.kd * light.color) 0
        + scale (s.material.ks * light.color)
          (pow (max 0 (dot (smul (2 * dot n l) n - l) v)) s.material.specularPower) := by
  have hmax : max 0 (dot n l) = 0 := max_eq_left (le_of_lt hnl)
  refine ⟨hmax, ?_⟩
  unfold PhongShading.Surface.getColor
  rw [hmax]

/-- C7, an instance of `getColor_back_facing`: the material of `sphere2` in `render`
(`ka = (0, 0.2, 0)`, `kd = (0, 0.5, 0)`, `ks = 0.5`, shininess 32), white light,
`n = (0, 0, 1)`, `l = (0, 0, -1)` behind the surface and `v = (0, 0, -1)`: the reflected
vector is `(0, 0, -1)`, `pow(1, 32) = 1`, and the colour is `(0.5, 0.7, 0.5)`, ambient plus
the full specular term. -/
theorem getColor_back_facing_witness :
    dot (⟨0, 0, 1⟩ : Vec3 ℝ) ⟨0, 0, -1⟩ < 0 ∧
    PhongShading.Surface.getColor Real.rpow
        (.sphere ⟨⟨0, 0, -7⟩, 2, ⟨⟨0, 1 / 5, 0⟩, ⟨0, 1 / 2, 0⟩, ⟨1 / 2, 1 / 2, 1 / 2⟩, 32⟩⟩)
        ⟨0, 0, 1⟩ ⟨0, 0, -1⟩ ⟨0, 0, -1⟩ ⟨⟨-4, 4, -3⟩, ⟨1, 1, 1⟩⟩ =
      (⟨1 / 2, 7 / 10, 1 / 2⟩ : Vec3 ℝ) := by
  have hd : dot (⟨0, 0, 1⟩ : Vec3 ℝ) ⟨0, 0, -1⟩ < 0 := by norm_num [dot]
  refine ⟨hd, ?_⟩
  rw [(getColor_back_facing Real.rpow
    (.sphere ⟨⟨0, 0, -7⟩, 2, ⟨⟨0, 1 / 5, 0⟩, ⟨0, 1 / 2, 0⟩, ⟨1 / 2, 1 / 2, 1 / 2⟩, 32⟩⟩)
    ⟨⟨-4, 4, -3⟩, ⟨1, 1, 1⟩⟩ ⟨0, 0, 1⟩ ⟨0, 0, -1⟩ ⟨0, 0, -1⟩ hd).2]
  norm_num [PhongShading.Surface.material, dot, Vec3.scale, Vec3.smul]

/-! ## C10: a ray aimed at the centre of a sphere -/

theorem toward_centre_arith (q L k : ℝ) (hk : 0 < k) (hL : 0 < L) (hLL : L * L = q) :
    1 / (k * L) * (1 / (k * L) * (k * k * q)) = 1 ∧ 1 / (k * L) * -(k * q) = -L := by
  subst hLL
  have hk0 : k ≠ 0 := ne_of_gt hk
  have hL0 : L ≠ 0 := ne_of_gt hL
  constructor
  · field_simp
    ring
  · field_simp
    ring

/-- The direction the constructor `Ray` stores for a ray aimed from `o` at `c` (any positive
multiple `k` of `c - o`) has unit length and its dot product with `o - c` is minus the
distance from `o` to `c`. -/
theorem normalize_toward_centre (o c : Vec3 ℝ) (k : ℝ) (hk : 0 < k)
    (hq : 0 < dot (o - c) (o - c)) :
    dot (normalize Real.sqrt (smul k (c - o))) (normalize Real.sqrt (smul k (c - o))) = 1 ∧
    dot (o - c) (normalize Real.sqrt (smul k (c - o))) = -Real.sqrt (dot (o - c) (o - c)) := by
  have hL : 0 < Real.sqrt (dot (o - c) (o - c)) := Real.sqrt_pos.2 hq
  have hLL : Real.sqrt (dot (o - c) (o - c)) * Real.sqrt (dot (o - c) (o - c)) =
      dot (o - c) (o - c) := Real.mul_self_sqrt (le_of_lt hq)
  have hdd : dot (smul k (c - o)) (smul k (c - o)) = k * k * dot (o - c) (o - c) := by
    simp only [dot, Vec3.smul, Vec3.sub_def]
    ring
  have hs : Real.sqrt (dot (smul k (c - o)) (smul k (c - o))) =
      k * Real.sqrt (dot (o - c) (o - c)) := by
    rw [Real.sqrt_eq_iff_mul_self_eq (by rw [hdd]; positivity) (by positivity), hdd]
    linear_combination (-(k * k)) * hLL
  have hwd : dot (o - c) (smul k (c - o)) = -(k * dot (o - c) (o - c)) := by
    simp only [dot, Vec3.smul, Vec3.sub_def]
    ring
  have h1 : ∀ u v : Vec3 ℝ, ∀ m : ℝ, dot u (scale v m) = m * dot u v := by
    intro u v m
    simp only [dot, Vec3.scale]
    ring
  have h2 : ∀ u v : Vec3 ℝ, ∀ m : ℝ, dot (scale u m) v = m * dot u v := by
    intro u v m
    simp only [dot, Vec3.scale]
    ring
  have harith := toward_centre_arith (dot (o - c) (o - c)) (Real.sqrt (dot (o - c) (o - c)))
    k hk hL hLL
  constructor
  · unfold Vec3.normalize
    rw [h1, h2, hs, hdd]
    exact harith.1
  · unfold Vec3.normalize
    rw [h1, hs, hwd]
    exact harith.2

theorem spec_toward_centre (c o : Vec3 ℝ) (r k : ℝ) (hr : 0 < r) (hk : 0 < k)
    (hout : r < length Real.sqrt (o - c)) :
    dot (Ray.new Real.sqrt o (smul k (c - o))).direction
        (Ray.new Real.sqrt o (smul k (c - o))).direction = 1 ∧
    0 < specDiscriminant c r (Ray.new Real.sqrt o (smul k (c - o))) ∧
    specNearRoot Real.sqrt c r (Ray.new Real.sqrt o (smul k (c - o))) =
      length Real.sqrt (o - c) - r := by
  have hL : 0 < Real.sqrt (dot (o - c) (o - c)) := lt_trans hr hout
  have hq : 0 < dot (o - c) (o - c) := Real.sqrt_pos.1 hL
  have hLL : Real.sqrt (dot (o - c) (o - c)) * Real.sqrt (dot (o - c) (o - c)) =
      dot (o - c) (o - c) := Real.mul_self_sqrt (le_of_lt hq)
  obtain ⟨ha, hb⟩ := normalize_toward_centre o c k hk hq
  have hdisc : specDiscriminant c r (Ray.new Real.sqrt o (smul k (c - o))) = r ^ 2 := by
    simp only [specDiscriminant, Ray.new]
    rw [ha, hb]
    linear_combination hLL
  refine ⟨ha, by rw [hdisc]; positivity, ?_⟩
  simp only [specNearRoot, hdisc, Real.sqrt_sq (le_of_lt hr), Vec3.length]
  simp only [Ray.new]
  rw [ha, hb]
  ring

theorem RayTracing.groundPlane_eq :
    groundPlane Real.sqrt = (⟨⟨0, 1, 0⟩, -2, ⟨1, 1, 1⟩⟩ : Plane ℝ) := by
  norm_num [groundPlane, Plane.new, Vec3.normalize, Vec3.scale, dot]

theorem normalize_normalize (u : Vec3 ℝ) (hq : 0 < dot u u) :
    normalize Real.sqrt (normalize Real.sqrt u) = scale u (1 / Real.sqrt (dot u u)) := by
  have hL : 0 < Real.sqrt (dot u u) := Real.sqrt_pos.2 hq
  have hLL : Real.sqrt (dot u u) * Real.sqrt (dot u u) = dot u u :=
    Real.mul_self_sqrt (le_of_lt hq)
  have h1 : dot (scale u (1 / Real.sqrt (dot u u))) (scale u (1 / Real.sqrt (dot u u))) = 1 := by
    have : dot (scale u (1 / Real.sqrt (dot u u))) (scale u (1 / Real.sqrt (dot u u))) =
        dot u u / (Real.sqrt (dot u u) * Real.sqrt (dot u u)) := by
      generalize Real.sqrt (dot u u) = L
      simp only [dot, Vec3.scale]
      ring
    rw [this, hLL]
    exact div_self (ne_of_gt hq)
  have h2 : normalize Real.sqrt u = scale u (1 / Real.sqrt (dot u u)) := rfl
  rw [h2]
  unfold Vec3.normalize
  rw [h1, Real.sqrt_one]
  simp [Vec3.scale]

theorem RayTracing.getRay_eq (cam : Camera ℝ) (x y : ℝ) :
    cam.getRay Real.sqrt x y =
      ⟨cam.position, scale ⟨x, y, -(1 / 10)⟩ (1 / Real.sqrt (x * x + y * y + 1 / 100))⟩ := by
  have hu : (⟨x, y, 0⟩ : Vec3 ℝ) + ⟨0, 0, -(1 / 10)⟩ = ⟨x, y, -(1 / 10)⟩ := by simp
  have hd : dot (⟨x, y, -(1 / 10)⟩ : Vec3 ℝ) ⟨x, y, -(1 / 10)⟩ = x * x + y * y + 1 / 100 := by
    simp only [dot]
    ring
  have hq : 0 < dot (⟨x, y, -(1 / 10)⟩ : Vec3 ℝ) ⟨x, y, -(1 / 10)⟩ := by
    rw [hd]
    nlinarith [mul_self_nonneg x, mul_self_nonneg y]
  unfold Camera.getRay Ray.new
  rw [hu, normalize_normalize _ hq, hd]

theorem RayTracing.ground_intersect_eq (col : Vec3 ℝ) (x y L tMax : ℝ) :
    Plane.intersect (⟨⟨0, 1, 0⟩, -2, col⟩ : Plane ℝ)
        ⟨⟨0, 0, 0⟩, scale ⟨x, y, -(1 / 10)⟩ (1 / L)⟩ 0 tMax =
      if 1 / 1000000 < |y / L| then
        if 0 ≤ -2 / (y / L) ∧ -2 / (y / L) ≤ tMax then some (-2 / (y / L)) else none
      else none := by
  have e1 : (0 : ℝ) * (x * (1 / L)) + 1 * (y * (1 / L)) + 0 * (-(1 / 10) * (1 / L)) = y / L := by
    ring
  have e2 : (-2 : ℝ) - (0 * 0 + 1 * 0 + 0 * 0) = -2 := by ring
  simp only [Plane.intersect, dot, Vec3.scale, e1, e2, gt_iff_lt, ge_iff_le]

theorem RayTracing.ground_miss_up (cam : Camera ℝ) (hcam : cam.position = ⟨0, 0, 0⟩)
    (x y : ℝ) (hy : 0 < y) :
    (groundPlane Real.sqrt).intersect (cam.getRay Real.sqrt x y) 0 FLT_MAX = none := by
  have hL : 0 < Real.sqrt (x * x + y * y + 1 / 100) :=
    Real.sqrt_pos.2 (by nlinarith [mul_self_nonneg x, mul_self_nonneg y])
  rw [groundPlane_eq, getRay_eq, hcam, ground_intersect_eq]
  have hneg : -2 / (y / Real.sqrt (x * x + y * y + 1 / 100)) < 0 :=
    div_neg_of_neg_of_pos (by norm_num) (div_pos hy hL)
  split_ifs with h1 h2
  · exact absurd h2.1 (not_le.2 hneg)
  · rfl
  · rfl

theorem RayTracing.ground_hit_down (cam : Camera ℝ) (hcam : cam.position = ⟨0, 0, 0⟩)
    (x y : ℝ) (hy : y ≤ -(1 / 20)) (hq : x * x + y * y + 1 / 100 ≤ 1) :
    ∃ t, t < FLT_MAX ∧
      (groundPlane Real.sqrt).intersect (cam.getRay Real.sqrt x y) 0 FLT_MAX = some t := by
  have hL : 0 < Real.sqrt (x * x + y * y + 1 / 100) :=
    Real.sqrt_pos.2 (by nlinarith [mul_self_nonneg x, mul_self_nonneg y])
  have hL1 : Real.sqrt (x * x + y * y + 1 / 100) ≤ 1 := by
    have h := Real.sqrt_le_sqrt hq
    rwa [Real.sqrt_one] at h
  rw [groundPlane_eq, getRay_eq, hcam, ground_intersect_eq]
  generalize Real.sqrt (x * x + y * y + 1 / 100) = L at hL hL1
  have hyL : y / L ≤ -(1 / 20) := by
    rw [div_le_iff₀ hL]
    nlinarith
  have hyneg : y / L < 0 := by linarith
  have hypos : 0 < -y := by linarith
  have hy0 : y ≠ 0 := by linarith
  have ht : -2 / (y / L) = 2 * L / -y := by
    field_simp
  have ht0 : 0 ≤ -2 / (y / L) := by
    rw [ht]
    positivity
  have ht40 : -2 / (y / L) ≤ 40 := by
    rw [ht, div_le_iff₀ hypos]
    nlinarith
  have hmax : (40 : ℝ) < FLT_MAX := by norm_num [FLT_MAX]
  have habs : 1 / 1000000 < |y / L| := by
    rw [abs_of_neg hyneg]
    linarith
  refine ⟨-2 / (y / L), lt_of_le_of_lt ht40 hmax, ?_⟩
  rw [if_pos habs, if_pos ⟨ht0, le_of_lt (lt_of_le_of_lt ht40 hmax)⟩]

theorem RayTracing.trace_ground_only (cam : Camera ℝ) (hcam : cam.position = ⟨0, 0, 0⟩)
    (x y : ℝ) :
    (0 < y →
      Scene.trace Real.sqrt ⟨[.plane (groundPlane Real.sqrt)], cam⟩
        (cam.getRay Real.sqrt x y) 0 FLT_MAX = ⟨0, 0, 0⟩) ∧
    (y ≤ -(1 / 20) → x * x + y * y + 1 / 100 ≤ 1 →
      Scene.trace Real.sqrt ⟨[.plane (groundPlane Real.sqrt)], cam⟩
        (cam.getRay Real.sqrt x y) 0 FLT_MAX = ⟨1, 1, 1⟩) := by
  constructor
  · intro hy
    have h := ground_miss_up cam hcam x y hy
    simp [Scene.trace, Scene.traceLoop, Scene.traceStep, Surface.intersect, h]
  · intro hy hq
    obtain ⟨t, ht, h⟩ := ground_hit_down cam hcam x y hy hq
    rw [groundPlane_eq] at h ⊢
    simp [Scene.trace, Scene.traceLoop, Scene.traceStep, Surface.intersect, h, ht,
      Surface.color]

theorem vectorResize_length {F : Type} (img : List F) (n : Nat) (v : F) :
    (vectorResize img n v).length = n := by
  simp only [vectorResize, List.length_append, List.length_take, List.length_replicate]
  omega

theorem list_of_length_twelve {F : Type} (l : List F) (h : l.length = 12) :
    ∃ a0 a1 a2 a3 a4 a5 a6 a7 a8 a9 a10 a11,
      l = [a0, a1, a2, a3, a4, a5, a6, a7, a8, a9, a10, a11] := by
  rcases l with _ | ⟨a0, _ | ⟨a1, _ | ⟨a2, _ | ⟨a3, _ | ⟨a4, _ | ⟨a5, _ | ⟨a6, _ | ⟨a7,
    _ | ⟨a8, _ | ⟨a9, _ | ⟨a10, _ | ⟨a11, _ | ⟨a12, l⟩⟩⟩⟩⟩⟩⟩⟩⟩⟩⟩⟩⟩ <;>
    simp at h
  exact ⟨a0, a1, a2, a3, a4, a5, a6, a7, a8, a9, a10, a11, rfl⟩

theorem RayTracing.pixelColor_ground_two_by_two :
    pixelColor Real.sqrt
        ⟨[.plane (groundPlane Real.sqrt)], Camera.new Real.sqrt ⟨0, 0, 0⟩ ⟨0, 0, -1⟩ (1 / 10)⟩
        2 2 0 0 = ⟨1, 1, 1⟩ ∧
    pixelColor Real.sqrt
        ⟨[.plane (groundPlane Real.sqrt)], Camera.new Real.sqrt ⟨0, 0, 0⟩ ⟨0, 0, -1⟩ (1 / 10)⟩
        2 2 1 0 = ⟨1, 1, 1⟩ ∧
    pixelColor Real.sqrt
        ⟨[.plane (groundPlane Real.sqrt)], Camera.new Real.sqrt ⟨0, 0, 0⟩ ⟨0, 0, -1⟩ (1 / 10)⟩
        2 2 0 1 = ⟨0, 0, 0⟩ ∧
    pixelColor Real.sqrt
        ⟨[.plane (groundPlane Real.sqrt)], Camera.new Real.sqrt ⟨0, 0, 0⟩ ⟨0, 0, -1⟩ (1 / 10)⟩
        2 2 1 1 = ⟨0, 0, 0⟩ := by
  refine ⟨?_, ?_, ?_, ?_⟩
  · exact (trace_ground_only _ rfl _ _).2 (by norm_num) (by norm_num)
  · exact (trace_ground_only _ rfl _ _).2 (by norm_num) (by norm_num)
  · exact (trace_ground_only _ rfl _ _).1 (by norm_num)
  · exact (trace_ground_only _ rfl _ _).1 (by norm_num)

theorem RayTracing.renderScene_ground_two_by_two (img : List ℝ) :
    renderScene Real.sqrt [.plane (groundPlane Real.sqrt)] 2 2 img =
      [1, 1, 1, 1, 1, 1, 0, 0, 0, 0, 0, 0] := by
  obtain ⟨h00, h10, h01, h11⟩ := pixelColor_ground_two_by_two
  obtain ⟨a0, a1, a2, a3, a4, a5, a6, a7, a8, a9, a10, a11, hl⟩ :=
    list_of_length_twelve _ (vectorResize_length img (2 * 2 * 3) 1)
  have hr : List.range 2 = [0, 1] := rfl
  simp only [renderScene, hr, List.foldl_cons, List.foldl_nil, h00, h10, h01, h11, hl]
  simp [ImagePlane.set]

/-- C4 as stated fails: in the 2x2 render of the ground plane alone, the primary ray of
pixel `(0, 1)` has `x = -0.05`, `y = +0.05`, points upward and does not hit the plane
`y = -2` (`t` would be negative); the pixel is the black background, not the plane's colour
`(1, 1, 1)`, and the rendered buffer holds two black pixels. -/
theorem render_plane_only_counterexample :
    (1 / 5 * (((0 : ℕ) : ℝ) + 1 / 2)) / ((2 : ℕ) : ℝ) - 1 / 10 = -(1 / 20) ∧
    (1 / 5 * (((1 : ℕ) : ℝ) + 1 / 2)) / ((2 : ℕ) : ℝ) - 1 / 10 = 1 / 20 ∧
    (RayTracing.groundPlane Real.sqrt).intersect
        (RayTracing.pixelRay Real.sqrt
          ⟨[.plane (RayTracing.groundPlane Real.sqrt)],
            RayTracing.Camera.new Real.sqrt ⟨0, 0, 0⟩ ⟨0, 0, -1⟩ (1 / 10)⟩ 2 2 0 1)
        0 FLT_MAX = none ∧
    RayTracing.pixelColor Real.sqrt
        ⟨[.plane (RayTracing.groundPlane Real.sqrt)],
          RayTracing.Camera.new Real.sqrt ⟨0, 0, 0⟩ ⟨0, 0, -1⟩ (1 / 10)⟩ 2 2 0 1 = ⟨0, 0, 0⟩ ∧
    (RayTracing.groundPlane Real.sqrt).color = ⟨1, 1, 1⟩ ∧
    RayTracing.renderScene Real.sqrt [.plane (RayTracing.groundPlane Real.sqrt)] 2 2 [] =
      [1, 1, 1, 1, 1, 1, 0, 0, 0, 0, 0, 0] := by
  refine ⟨by norm_num, by norm_num, ?_, RayTracing.pixelColor_ground_two_by_two.2.2.1, rfl,
    RayTracing.renderScene_ground_two_by_two []⟩
  exact RayTracing.ground_miss_up _ rfl _ _ (by norm_num)

/-- C4 (amended): with `Width = Height = 2`, a surface list containing only the ground plane
(normal `(0, 1, 0)`, `d = -2`, colour `(1, 1, 1)`) and the camera at the origin facing `-z`,
whatever the buffer held before: the two primary rays of row `iy = 0` (`y = -0.05`) hit
the plane and their pixels are the plane's colour; the two primary rays of row `iy = 1`
(`y = +0.05`) miss the plane and their pixels are the black background; the buffer after
`render` is `[1,1,1, 1,1,1, 0,0,0, 0,0,0]`. -/
theorem render_plane_only (img : List ℝ) :
    (∃ t, (RayTracing.groundPlane Real.sqrt).intersect
        (RayTracing.pixelRay Real.sqrt
          ⟨[.plane (RayTracing.groundPlane Real.sqrt)],
            RayTracing.Camera.new Real.sqrt ⟨0, 0, 0⟩ ⟨0, 0, -1⟩ (1 / 10)⟩ 2 2 0 0)
        0 FLT_MAX = some t) ∧
    (∃ t, (RayTracing.groundPlane Real.sqrt).intersect
        (RayTracing.pixelRay Real.sqrt
          ⟨[.plane (RayTracing.groundPlane Real.sqrt)],
            RayTracing.Camera.new Real.sqrt ⟨0, 0, 0⟩ ⟨0, 0, -1⟩ (1 / 10)⟩ 2 2 1 0)
        0 FLT_MAX = some t) ∧
    (RayTracing.groundPlane Real.sqrt).intersect
        (RayTracing.pixelRay Real.sqrt
          ⟨[.plane (RayTracing.groundPlane Real.sqrt)],
            RayTracing.Camera.new Real.sqrt ⟨0, 0, 0⟩ ⟨0, 0, -1⟩ (1 / 10)⟩ 2 2 0 1)
        0 FLT_MAX = none ∧
    (RayTracing.groundPlane Real.sqrt).intersect
        (RayTracing.pixelRay Real.sqrt
          ⟨[.plane (RayTracing.groundPlane Real.sqrt)],
            RayTracing.Camera.new Real.sqrt ⟨0, 0, 0⟩ ⟨0, 0, -1⟩ (1 / 10)⟩ 2 2 1 1)
        0 FLT_MAX = none ∧
    RayTracing.renderScene Real.sqrt [.plane (RayTracing.groundPlane Real.sqrt)] 2 2 img =
      [1, 1, 1, 1, 1, 1, 0, 0, 0, 0, 0, 0] := by
  refine ⟨?_, ?_, ?_, ?_, RayTracing.renderScene_ground_two_by_two img⟩
  · obtain ⟨t, _, h⟩ := RayTracing.ground_hit_down
      (RayTracing.Camera.new Real.sqrt ⟨0, 0, 0⟩ ⟨0, 0, -1⟩ (1 / 10)) rfl
      ((1 / 5 * (((0 : ℕ) : ℝ) + 1 / 2)) / ((2 : ℕ) : ℝ) - 1 / 10)
      ((1 / 5 * (((0 : ℕ) : ℝ) + 1 / 2)) / ((2 : ℕ) : ℝ) - 1 / 10)
      (by norm_num) (by norm_num)
    exact ⟨t, h⟩
  · obtain ⟨t, _, h⟩ := RayTracing.ground_hit_down
      (RayTracing.Camera.new Real.sqrt ⟨0, 0, 0⟩ ⟨0, 0, -1⟩ (1 / 10)) rfl
      ((1 / 5 * (((1 : ℕ) : ℝ) + 1 / 2)) / ((2 : ℕ) : ℝ) - 1 / 10)
      ((1 / 5 * (((0 : ℕ) : ℝ) + 1 / 2)) / ((2 : ℕ) : ℝ) - 1 / 10)
      (by norm_num) (by norm_num)
    exact ⟨t, h⟩
  · exact RayTracing.ground_miss_up _ rfl _ _ (by norm_num)
  · exact RayTracing.ground_miss_up _ rfl _ _ (by norm_num)

/-! ## C11: a ray that passes a sphere -/

section PlaneDiv

variable {F : Type} [LinearOrderedField F]

theorem RayTracing.Plane.intersect_flat_eq_intersectDiv (p : Plane F) (ray : Ray F)
    (tMin tMax : F) :
    p.intersect ray tMin tMax = Plane.intersectDiv (fun a b => a / b) p ray tMin tMax :=
  rfl

theorem PhongShading.Plane.intersect_phong_eq_intersectDiv (p : Plane F) (ray : Ray F)
    (tMin tMax : F) :
    p.intersect ray tMin tMax = Plane.intersectDiv (fun a b => a / b) p ray tMin tMax :=
  rfl

end PlaneDiv

/-- C12: in both files, for every plane, every ray with `dot(normal, direction) = 0`, every
origin (on the plane or not) and every `tMin`, `tMax`, `Plane::intersect` reports no hit;
and it does so without dividing: the result is `none` whatever operation stands in for the
division `(d - dot(normal, origin)) / denom`. -/
theorem plane_parallel_no_hit {F : Type} [LinearOrderedField F] :
    (∀ (p : RayTracing.Plane F) (ray : Ray F) (tMin tMax : F),
      dot p.normal ray.direction = 0 →
      p.intersect ray tMin tMax = none ∧
      ∀ div : F → F → F, RayTracing.Plane.intersectDiv div p ray tMin tMax = none) ∧
    (∀ (p : PhongShading.Plane F) (ray : Ray F) (tMin tMax : F),
      dot p.normal ray.direction = 0 →
      p.intersect ray tMin tMax = none ∧
      ∀ div : F → F → F, PhongShading.Plane.intersectDiv div p ray tMin tMax = none) := by
  constructor
  · intro p ray tMin tMax h
    have key : ∀ div : F → F → F, RayTracing.Plane.intersectDiv div p ray tMin tMax = none := by
      intro div
      simp [RayTracing.Plane.intersectDiv, h]
    exact ⟨by rw [RayTracing.Plane.intersect_flat_eq_intersectDiv]; exact key _, key⟩
  · intro p ray tMin tMax h
    have key : ∀ div : F → F → F, PhongShading.Plane.intersectDiv div p ray tMin tMax = none := by
      intro div
      simp [PhongShading.Plane.intersectDiv, h]
    exact ⟨by rw [PhongShading.Plane.intersect_phong_eq_intersectDiv]; exact key _, key⟩

/-- C12, an instance of `plane_parallel_no_hit`: the ground plane `y = -2` and the ray from
the point `(0, -2, 0)` of the plane along `(1, 0, 0)`: no hit for the bounds `(0, 100)`. -/
theorem plane_parallel_no_hit_witness :
    dot (⟨0, 1, 0⟩ : Vec3 ℝ) ⟨1, 0, 0⟩ = 0 ∧
    RayTracing.Plane.intersect (⟨⟨0, 1, 0⟩, -2, ⟨1, 1, 1⟩⟩ : RayTracing.Plane ℝ)
        ⟨⟨0, -2, 0⟩, ⟨1, 0, 0⟩⟩ 0 100 = none := by
  have h : dot (⟨0, 1, 0⟩ : Vec3 ℝ) ⟨1, 0, 0⟩ = 0 := by norm_num [dot]
  exact ⟨h, (plane_parallel_no_hit.1 (⟨⟨0, 1, 0⟩, -2, ⟨1, 1, 1⟩⟩ : RayTracing.Plane ℝ)
    ⟨⟨0, -2, 0⟩, ⟨1, 0, 0⟩⟩ 0 100 h).1⟩

/-! ## C14, C15: the constructor `Ray` normalises -/

theorem dot_self_nonneg (u : Vec3 ℝ) : 0 ≤ dot u u := by
  simp only [dot]
  nlinarith [mul_self_nonneg u.x, mul_self_nonneg u.y, mul_self_nonneg u.z]

theorem dot_self_pos (u : Vec3 ℝ) (h : u ≠ ⟨0, 0, 0⟩) : 0 < dot u u := by
  rcases lt_or_eq_of_le (dot_self_nonneg u) with hlt | heq
  · exact hlt
  · exfalso
    apply h
    simp only [dot] at heq
    have hx : u.x = 0 := by
      nlinarith [mul_self_nonneg u.x, mul_self_nonneg u.y, mul_self_nonneg u.z]
    have hy : u.y = 0 := by
      nlinarith [mul_self_nonneg u.x, mul_self_nonneg u.y, mul_self_nonneg u.z]
    have hz : u.z = 0 := by
      nlinarith [mul_self_nonneg u.x, mul_self_nonneg u.y, mul_self_nonneg u.z]
    cases u
    simp only at hx hy hz
    rw [hx, hy, hz]

theorem dot_normalize_self (u : Vec3 ℝ) (hq : 0 < dot u u) :
    dot (normalize Real.sqrt u) (normalize Real.sqrt u) = 1 := by
  have hLL : Real.sqrt (dot u u) * Real.sqrt (dot u u) = dot u u :=
    Real.mul_self_sqrt (le_of_lt hq)
  have h : dot (normalize Real.sqrt u) (normalize Real.sqrt u) =
      dot u u / (Real.sqrt (dot u u) * Real.sqrt (dot u u)) := by
    unfold Vec3.normalize
    generalize Real.sqrt (dot u u) = L
    simp only [dot, Vec3.scale]
    ring
  rw [h, hLL]
  exact div_self (ne_of_gt hq)

theorem length_normalize (u : Vec3 ℝ) (h : u ≠ ⟨0, 0, 0⟩) :
    length Real.sqrt (normalize Real.sqrt u) = 1 := by
  unfold Vec3.length
  rw [dot_normalize_self u (dot_self_pos u h), Real.sqrt_one]

theorem normalize_ne_zero (u : Vec3 ℝ) (h : u ≠ ⟨0, 0, 0⟩) :
    normalize Real.sqrt u ≠ ⟨0, 0, 0⟩ := by
  intro h0
  have h1 := dot_normalize_self u (dot_self_pos u h)
  rw [h0] at h1
  norm_num [dot] at h1

theorem length_ray_of_normalized (o v : Vec3 ℝ) (h : v ≠ ⟨0, 0, 0⟩) :
    length Real.sqrt (Ray.new Real.sqrt o (normalize Real.sqrt v)).direction = 1 :=
  length_normalize _ (normalize_ne_zero v h)

theorem dot_self_of_length_eq (u : Vec3 ℝ) (r : ℝ) (h : length Real.sqrt u = r) :
    dot u u = r * r := by
  rw [← h]
  exact (Real.mul_self_sqrt (dot_self_nonneg u)).symm

theorem dot_self_le_of_length_le (u : Vec3 ℝ) (r : ℝ) (h : length Real.sqrt u ≤ r) :
    dot u u ≤ r * r := by
  have h0 : 0 ≤ Real.sqrt (dot u u) := Real.sqrt_nonneg _
  calc dot u u = Real.sqrt (dot u u) * Real.sqrt (dot u u) :=
        (Real.mul_self_sqrt (dot_self_nonneg u)).symm
    _ ≤ r * r := mul_self_le_mul_self h0 h

/-- The near root `(-b - sqrt(disc)) / a` is not positive when `disc >= b * b` and
`a >= 0`. -/
theorem near_root_nonpos (a b disc : ℝ) (ha : 0 ≤ a) (hdisc : b * b ≤ disc) :
    (-b - Real.sqrt disc) / a ≤ 0 := by
  have h1 : |b| ≤ Real.sqrt disc := by
    rw [← Real.sqrt_mul_self_eq_abs]
    exact Real.sqrt_le_sqrt hdisc
  have h2 : -b ≤ |b| := neg_le_abs b
  exact div_nonpos_of_nonpos_of_nonneg (by linarith) ha

theorem PhongShading.Sphere.intersect_none_of_inside (s : Sphere ℝ) (ray : Ray ℝ)
    (tMin tMax : ℝ) (hin : dot (ray.origin - s.center) (ray.origin - s.center)
      ≤ s.radius * s.radius) (hmin : 0 ≤ tMin) :
    s.intersect Real.sqrt ray tMin tMax = none := by
  rw [PhongShading.Sphere.intersect_phong_eq_spec]
  apply if_neg
  rintro ⟨_, hlt, _⟩
  have ha : 0 ≤ dot ray.direction ray.direction := dot_self_nonneg _
  have hroot : specNearRoot Real.sqrt s.center s.radius ray ≤ 0 := by
    unfold specNearRoot
    apply near_root_nonpos _ _ _ ha
    unfold specDiscriminant
    nlinarith
  linarith

theorem RayTracing.Sphere.intersect_none_of_within (s : Sphere ℝ) (ray : Ray ℝ)
    (tMin tMax : ℝ) (hin : dot (ray.origin - s.center) (ray.origin - s.center)
      ≤ s.radius * s.radius) (hmin : 0 ≤ tMin) :
    s.intersect Real.sqrt ray tMin tMax = none := by
  have ha : 0 ≤ dot ray.direction ray.direction := dot_self_nonneg _
  have hroot := near_root_nonpos (dot ray.direction ray.direction)
    (dot (ray.origin - s.center) ray.direction)
    (dot (ray.origin - s.center) ray.direction * dot (ray.origin - s.center) ray.direction
      - (dot (ray.origin - s.center) (ray.origin - s.center) - s.radius * s.radius))
    ha (by linarith)
  simp only [Sphere.intersect]
  split_ifs with h1 h2
  · exact absurd h2.2 (not_lt.2 (le_trans hroot hmin))
  · rfl
  · rfl

/-- C16: in exact arithmetic, for every sphere or plane `S` of `PhongShading.cpp`, every
point `p` exactly on `S` (`|p - center| = radius`, resp. `dot(normal, p) = d`) and every
non-zero direction, `S.intersect` on the ray from `p` with `tMin = 0.001` and any `tMax`
reports no hit, so `traceShadow` on the list holding `S` alone returns `false`: the surface
is not reported as the occluder of its own point. -/
theorem no_self_occlusion :
    (∀ (s : PhongShading.Sphere ℝ) (p d : Vec3 ℝ) (tMax : ℝ),
      d ≠ ⟨0, 0, 0⟩ → length Real.sqrt (p - s.center) = s.radius →
      s.intersect Real.sqrt ⟨p, d⟩ (1 / 1000) tMax = none ∧
      PhongShading.Scene.traceShadow Real.sqrt [.sphere s] ⟨p, d⟩ (1 / 1000) tMax = false) ∧
    (∀ (pl : PhongShading.Plane ℝ) (p d : Vec3 ℝ) (tMax : ℝ),
      d ≠ ⟨0, 0, 0⟩ → dot pl.normal p = pl.d →
      pl.intersect ⟨p, d⟩ (1 / 1000) tMax = none ∧
      PhongShading.Scene.traceShadow Real.sqrt [.plane pl] ⟨p, d⟩ (1 / 1000) tMax = false) := by
  constructor
  · intro s p d tMax _ hon
    have h : s.intersect Real.sqrt ⟨p, d⟩ (1 / 1000) tMax = none :=
      PhongShading.Sphere.intersect_none_of_inside s ⟨p, d⟩ (1 / 1000) tMax
        (le_of_eq (dot_self_of_length_eq _ _ hon)) (by norm_num)
    exact ⟨h, by simp only [PhongShading.Scene.traceShadow, PhongShading.Surface.intersect, h,
      Option.isSome_none, Bool.false_eq_true, if_false]⟩
  · intro pl p d tMax _ hon
    have h : pl.intersect ⟨p, d⟩ (1 / 1000) tMax = none := by
      simp only [PhongShading.Plane.intersect, hon, sub_self, zero_div]
      split_ifs with h1 h2
      · exact absurd h2.1 (by norm_num)
      · rfl
      · rfl
    exact ⟨h, by simp only [PhongShading.Scene.traceShadow, PhongShading.Surface.intersect, h,
      Option.isSome_none, Bool.false_eq_true, if_false]⟩

/-- C16, an instance of `no_self_occlusion`: the point `(0, 0, -5)` of `sphere2` of `render`
(centre `(0, 0, -7)`, radius 2) and the shadow direction `(0, 0, -1)` into the sphere, and
the point `(0, -2, 0)` of the ground plane with the direction `(0, 1, 0)`: no hit for
`tMin = 0.001`, `tMax = 100`. -/
theorem no_self_occlusion_witness :
    length Real.sqrt ((⟨0, 0, -5⟩ : Vec3 ℝ) - ⟨0, 0, -7⟩) = 2 ∧
    PhongShading.Sphere.intersect Real.sqrt
        ⟨⟨0, 0, -7⟩, 2, ⟨⟨0, 1 / 5, 0⟩, ⟨0, 1 / 2, 0⟩, ⟨1 / 2, 1 / 2, 1 / 2⟩, 32⟩⟩
        ⟨⟨0, 0, -5⟩, ⟨0, 0, -1⟩⟩ (1 / 1000) 100 = none ∧
    dot (⟨0, 1, 0⟩ : Vec3 ℝ) ⟨0, -2, 0⟩ = -2 ∧
    PhongShading.Plane.intersect
        (⟨⟨0, 1, 0⟩, -2, ⟨⟨1 / 5, 1 / 5, 1 / 5⟩, ⟨1, 1, 1⟩, ⟨0, 0, 0⟩, 0⟩⟩ : PhongShading.Plane ℝ)
        ⟨⟨0, -2, 0⟩, ⟨0, 1, 0⟩⟩ (1 / 1000) 100 = none := by
  have h4 : Real.sqrt 4 = 2 := by
    rw [Real.sqrt_eq_iff_mul_self_eq] <;> norm_num
  have hs : length Real.sqrt ((⟨0, 0, -5⟩ : Vec3 ℝ) - ⟨0, 0, -7⟩) = 2 := by
    norm_num [Vec3.length, dot, h4]
  have hp : dot (⟨0, 1, 0⟩ : Vec3 ℝ) ⟨0, -2, 0⟩ = -2 := by norm_num [dot]
  exact ⟨hs,
    (no_self_occlusion.1 ⟨⟨0, 0, -7⟩, 2, ⟨⟨0, 1 / 5, 0⟩, ⟨0, 1 / 2, 0⟩, ⟨1 / 2, 1 / 2, 1 / 2⟩, 32⟩⟩
      ⟨0, 0, -5⟩ ⟨0, 0, -1⟩ 100 (by simp) hs).1,
    hp,
    (no_self_occlusion.2
      (⟨⟨0, 1, 0⟩, -2, ⟨⟨1 / 5, 1 / 5, 1 / 5⟩, ⟨1, 1, 1⟩, ⟨0, 0, 0⟩, 0⟩⟩ : PhongShading.Plane ℝ)
      ⟨0, -2, 0⟩ ⟨0, 1, 0⟩ 100 (by simp) hp).1⟩

theorem near_root_on_sphere (a b q r disc : ℝ) (ha : a ≠ 0) (hdisc : 0 ≤ disc)
    (h3 : disc = b * b - a * (q - r ^ 2)) :
    q + 2 * ((-b - Real.sqrt disc) / a) * b
      + (-b - Real.sqrt disc) / a * ((-b - Real.sqrt disc) / a) * a = r ^ 2 := by
  have h2 : Real.sqrt disc * Real.sqrt disc = disc := Real.mul_self_sqrt hdisc
  have h1 : a * ((-b - Real.sqrt disc) / a) = -b - Real.sqrt disc := by
    field_simp
  generalize (-b - Real.sqrt disc) / a = t at h1
  generalize Real.sqrt disc = s at h1 h2
  have key : a * (q + 2 * t * b + t * t * a - r ^ 2) = 0 := by
    linear_combination (a * t + (-b - s) + 2 * b) * h1 + h2 + h3
  have := (mul_eq_zero.1 key).resolve_left ha
  linarith

theorem dot_hit_point_expand (o c dir : Vec3 ℝ) (t : ℝ) :
    dot (o + scale dir t - c) (o + scale dir t - c) =
      dot (o - c) (o - c) + 2 * t * dot (o - c) dir + t * t * dot dir dir := by
  simp only [dot, Vec3.scale, Vec3.add_def, Vec3.sub_def]
  ring

theorem pixel_lt_of_lt (W H ix iy : Nat) (hx : ix < W) (hy : iy < H) :
    iy * W + ix < W * H := by
  have h1 : (iy + 1) * W ≤ H * W := Nat.mul_le_mul_right W hy
  have h2 : (iy + 1) * W = iy * W + W := by ring
  have h3 : H * W = W * H := Nat.mul_comm H W
  omega

theorem pixel_index_lt (W H ix iy k : Nat) (hx : ix < W) (hy : iy < H) (hk : k < 3) :
    (iy * W + ix) * 3 + k < W * H * 3 := by
  have h := pixel_lt_of_lt W H ix iy hx hy
  omega

theorem pixel_eq_of_eq (W ix iy jx jy : Nat) (hx : ix < W) (hjx : jx < W)
    (h : iy * W + ix = jy * W + jx) : ix = jx ∧ iy = jy := by
  have hy : iy = jy := by
    rcases Nat.lt_trichotomy iy jy with hlt | heq | hgt
    · exfalso
      have h1 : (iy + 1) * W ≤ jy * W := Nat.mul_le_mul_right W hlt
      have h2 : (iy + 1) * W = iy * W + W := by ring
      omega
    · exact heq
    · exfalso
      have h1 : (jy + 1) * W ≤ iy * W := Nat.mul_le_mul_right W hgt
      have h2 : (jy + 1) * W = jy * W + W := by ring
      omega
  subst hy
  exact ⟨by omega, rfl⟩

theorem pixel_index_inj (W ix iy k jx jy l : Nat) (hx : ix < W) (hjx : jx < W)
    (hk : k < 3) (hl : l < 3) (h : (iy * W + ix) * 3 + k = (jy * W + jx) * 3 + l) :
    ix = jx ∧ iy = jy ∧ k = l := by
  have h1 : iy * W + ix = jy * W + jx := by omega
  have h2 : k = l := by omega
  obtain ⟨hxx, hyy⟩ := pixel_eq_of_eq W ix iy jx jy hx hjx h1
  exact ⟨hxx, hyy, h2⟩

section Buffer

variable {F : Type}

theorem PhongShading.ImagePlane.set_eq_flat (W : Nat) (img : List F) (x y : Nat)
    (col : Vec3 F) :
    PhongShading.ImagePlane.set W img x y col = RayTracing.ImagePlane.set W img x y col :=
  rfl

theorem RayTracing.ImagePlane.length_set_pixel (W : Nat) (img : List F) (x y : Nat)
    (col : Vec3 F) : (ImagePlane.set W img x y col).length = img.length := by
  simp [ImagePlane.set]

theorem RayTracing.ImagePlane.set_hasPixel_self (W : Nat) (img : List F) (x y : Nat)
    (col : Vec3 F) (hb : (y * W + x) * 3 + 2 < img.length) :
    hasPixel W (ImagePlane.set W img x y col) x y col := by
  have h0 : (y * W + x) * 3 < img.length := by omega
  have h1 : (y * W + x) * 3 + 1 < img.length := by omega
  refine ⟨?_, ?_, ?_⟩
  · simp [ImagePlane.set, List.getElem?_set, h0]
  · simp [ImagePlane.set, List.getElem?_set, h1]
  · simp [ImagePlane.set, List.getElem?_set, hb]

theorem RayTracing.ImagePlane.set_hasPixel_other (W : Nat) (img : List F) (x y jx jy : Nat)
    (col col' : Vec3 F) (hx : x < W) (hjx : jx < W) (hne : ¬ (jx = x ∧ jy = y))
    (h : hasPixel W img jx jy col') :
    hasPixel W (ImagePlane.set W img x y col) jx jy col' := by
  have hP : y * W + x ≠ jy * W + jx := by
    intro heq
    exact hne (let ⟨a, b⟩ := pixel_eq_of_eq W x y jx jy hx hjx heq; ⟨a.symm, b.symm⟩)
  obtain ⟨h0, h1, h2⟩ := h
  refine ⟨?_, ?_, ?_⟩
  · rw [← h0]
    simp only [ImagePlane.set]
    rw [List.getElem?_set_ne (by omega), List.getElem?_set_ne (by omega),
      List.getElem?_set_ne (by omega)]
  · rw [← h1]
    simp only [ImagePlane.set]
    rw [List.getElem?_set_ne (by omega), List.getElem?_set_ne (by omega),
      List.getElem?_set_ne (by omega)]
  · rw [← h2]
    simp only [ImagePlane.set]
    rw [List.getElem?_set_ne (by omega), List.getElem?_set_ne (by omega),
      List.getElem?_set_ne (by omega)]

end Buffer

section Fill

variable {F : Type}

theorem RayTracing.fill_row (W H m : Nat) (c : Nat → Nat → Vec3 F) (hm : m < H) (n : Nat)
    (hn : n ≤ W) (img : List F) (hlen : img.length = W * H * 3)
    (hdone : ∀ ix iy, ix < W → iy < m → hasPixel W img ix iy (c ix iy)) :
    ((List.range n).foldl (fun img ix => ImagePlane.set W img ix m (c ix m)) img).length
        = W * H * 3 ∧
    (∀ ix iy, ix < W → iy < m →
      hasPixel W ((List.range n).foldl (fun img ix => ImagePlane.set W img ix m (c ix m)) img)
        ix iy (c ix iy)) ∧
    (∀ ix, ix < n →
      hasPixel W ((List.range n).foldl (fun img ix => ImagePlane.set W img ix m (c ix m)) img)
        ix m (c ix m)) := by
  induction n with
  | zero =>
    refine ⟨by simpa using hlen, by simpa using hdone, fun ix hix => absurd hix (by omega)⟩
  | succ n ih =>
    obtain ⟨ihlen, ihdone, ihrow⟩ := ih (by omega)
    rw [List.range_succ, List.foldl_append, List.foldl_cons, List.foldl_nil]
    have hnW : n < W := by omega
    refine ⟨?_, ?_, ?_⟩
    · rw [ImagePlane.length_set_pixel, ihlen]
    · intro ix iy hix hiy
      exact ImagePlane.set_hasPixel_other W _ n m ix iy _ _ hnW hix (by omega)
        (ihdone ix iy hix hiy)
    · intro ix hix
      by_cases hxn : ix = n
      · subst hxn
        apply ImagePlane.set_hasPixel_self
        rw [ihlen]
        have := pixel_index_lt W H ix m 2 hnW hm (by omega)
        omega
      · exact ImagePlane.set_hasPixel_other W _ n m ix m _ _ hnW (by omega) (by omega)
          (ihrow ix (by omega))

theorem RayTracing.fill_rows (W H : Nat) (c : Nat → Nat → Vec3 F) (m : Nat) (hm : m ≤ H)
    (img : List F) (hlen : img.length = W * H * 3) :
    ((List.range m).foldl (fun img iy =>
        (List.range W).foldl (fun img ix => ImagePlane.set W img ix iy (c ix iy)) img)
      img).length = W * H * 3 ∧
    (∀ ix iy, ix < W → iy < m →
      hasPixel W ((List.range m).foldl (fun img iy =>
          (List.range W).foldl (fun img ix => ImagePlane.set W img ix iy (c ix iy)) img)
        img) ix iy (c ix iy)) := by
  induction m with
  | zero =>
    exact ⟨by simpa using hlen, fun ix iy _ hiy => absurd hiy (by omega)⟩
  | succ m ih =>
    obtain ⟨ihlen, ihdone⟩ := ih (by omega)
    rw [List.range_succ, List.foldl_append, List.foldl_cons, List.foldl_nil]
    obtain ⟨rlen, rdone, rrow⟩ := fill_row W H m c (by omega) W (le_refl W) _ ihlen ihdone
    refine ⟨rlen, fun ix iy hix hiy => ?_⟩
    by_cases hym : iy = m
    · subst hym
      exact rrow ix hix
    · exact rdone ix iy hix (by omega)

end Fill

section Rebuild

variable {F : Type}

theorem eq_of_hasPixel_all (W H : Nat) (c : Nat → Nat → Vec3 F) (l₁ l₂ : List F)
    (len₁ : l₁.length = W * H * 3) (len₂ : l₂.length = W * H * 3)
    (h₁ : ∀ ix iy, ix < W → iy < H → hasPixel W l₁ ix iy (c ix iy))
    (h₂ : ∀ ix iy, ix < W → iy < H → hasPixel W l₂ ix iy (c ix iy)) : l₁ = l₂ := by
  apply List.ext_getElem?
  intro j
  by_cases hj : j < W * H * 3
  · have hP : j / 3 < W * H := by omega
    have hW : 0 < W := by
      rcases Nat.eq_zero_or_pos W with h0 | hpos
      · rw [h0] at hP
        simp at hP
      · exact hpos
    have hy : j / 3 / W < H := Nat.div_lt_of_lt_mul hP
    have hx : j / 3 % W < W := Nat.mod_lt _ hW
    have hsplit : j / 3 / W * W + j / 3 % W = j / 3 := Nat.div_add_mod' _ _
    obtain ⟨a0, a1, a2⟩ := h₁ _ _ hx hy
    obtain ⟨b0, b1, b2⟩ := h₂ _ _ hx hy
    rw [hsplit] at a0 a1 a2 b0 b1 b2
    have hk : j % 3 = 0 ∨ j % 3 = 1 ∨ j % 3 = 2 := by omega
    rcases hk with hk | hk | hk
    · have hj0 : j = j / 3 * 3 := by omega
      rw [hj0, a0, b0]
    · have hj1 : j = j / 3 * 3 + 1 := by omega
      rw [hj1, a1, b1]
    · have hj2 : j = j / 3 * 3 + 2 := by omega
      rw [hj2, a2, b2]
  · rw [List.getElem?_eq_none (by omega), List.getElem?_eq_none (by omega)]

theorem foldlM_option_eq_foldl {α β : Type} (f : β → α → Option β) (g : β → α → β)
    (h : ∀ b a, f b a = some (g b a)) (l : List α) (b : β) :
    l.foldlM f b = some (l.foldl g b) := by
  induction l generalizing b with
  | nil => rfl
  | cons a l ih =>
    rw [List.foldlM_cons, h, List.foldl_cons]
    exact ih _

end Rebuild

section RenderScene

variable {F : Type} [LinearOrderedField F]

theorem RayTracing.renderScene_flat_spec (sqrt : F → F) (surfaces : List (Surface F))
    (W H : Nat) (img : List F) :
    (renderScene sqrt surfaces W H img).length = W * H * 3 ∧
    ∀ ix iy, ix < W → iy < H →
      hasPixel W (renderScene sqrt surfaces W H img) ix iy
        (pixelColor sqrt ⟨surfaces, Camera.new sqrt ⟨0, 0, 0⟩ ⟨0, 0, -1⟩ (1 / 10)⟩
          W H ix iy) :=
  fill_rows W H
    (fun ix iy => pixelColor sqrt
      ⟨surfaces, Camera.new sqrt ⟨0, 0, 0⟩ ⟨0, 0, -1⟩ (1 / 10)⟩ W H ix iy)
    H (le_refl H) (vectorResize img (W * H * 3) 1) (vectorResize_length img (W * H * 3) 1)

theorem PhongShading.pixelColor_eq_some (sqrt : F → F) (pow : F → F → F)
    (surfaces : List (Surface F)) (cam : Camera F) (light : Light F)
    (rest : List (Light F)) (W H ix iy : Nat) :
    pixelColor sqrt pow ⟨surfaces, cam, light :: rest⟩ W H ix iy =
      some (Scene.traceColor sqrt pow surfaces light
        (pixelRay sqrt ⟨surfaces, cam, light :: rest⟩ W H ix iy)
        (Scene.traceLoop sqrt surfaces
          (pixelRay sqrt ⟨surfaces, cam, light :: rest⟩ W H ix iy) 0 FLT_MAX).1
        (Scene.traceLoop sqrt surfaces
          (pixelRay sqrt ⟨surfaces, cam, light :: rest⟩ W H ix iy) 0 FLT_MAX).2) :=
  rfl

theorem PhongShading.renderScene_phong_spec (sqrt : F → F) (pow : F → F → F)
    (surfaces : List (Surface F)) (light : Light F) (rest : List (Light F))
    (W H : Nat) (img : List F) :
    ∃ out, renderScene sqrt pow surfaces (light :: rest) W H img = some out ∧
      out.length = W * H * 3 ∧
      ∀ ix iy, ix < W → iy < H → ∃ col,
        pixelColor sqrt pow
          ⟨surfaces, Camera.new sqrt ⟨0, 0, 0⟩ ⟨0, 0, -1⟩ (1 / 10), light :: rest⟩
          W H ix iy = some col ∧
        hasPixel W out ix iy col := by
  obtain ⟨hlen, hpix⟩ := RayTracing.fill_rows W H
    (fun ix iy => Scene.traceColor sqrt pow surfaces light
      (pixelRay sqrt ⟨surfaces, Camera.new sqrt ⟨0, 0, 0⟩ ⟨0, 0, -1⟩ (1 / 10),
        light :: rest⟩ W H ix iy)
      (Scene.traceLoop sqrt surfaces
        (pixelRay sqrt ⟨surfaces, Camera.new sqrt ⟨0, 0, 0⟩ ⟨0, 0, -1⟩ (1 / 10),
          light :: rest⟩ W H ix iy) 0 FLT_MAX).1
      (Scene.traceLoop sqrt surfaces
        (pixelRay sqrt ⟨surfaces, Camera.new sqrt ⟨0, 0, 0⟩ ⟨0, 0, -1⟩ (1 / 10),
          light :: rest⟩ W H ix iy) 0 FLT_MAX).2)
    H (le_refl H) (vectorResize img (W * H * 3) 1) (vectorResize_length img (W * H * 3) 1)
  refine ⟨_, ?_, hlen, fun ix iy hix hiy => ⟨_, pixelColor_eq_some .., hpix ix iy hix hiy⟩⟩
  unfold renderScene
  apply foldlM_option_eq_foldl
  intro b iy
  apply foldlM_option_eq_foldl
  intro b' ix
  rfl

end RenderScene

theorem RayTracing.ImagePlane.set_getElem_other {F : Type} (W : Nat) (img : List F)
    (x y j : Nat) (col : Vec3 F) (h0 : j ≠ (y * W + x) * 3) (h1 : j ≠ (y * W + x) * 3 + 1)
    (h2 : j ≠ (y * W + x) * 3 + 2) : (ImagePlane.set W img x y col)[j]? = img[j]? := by
  simp only [ImagePlane.set]
  rw [List.getElem?_set_ne (Ne.symm h2), List.getElem?_set_ne (Ne.symm h1),
    List.getElem?_set_ne (Ne.symm h0)]

theorem intValue_of_le (n : Nat) (h : n ≤ INT_MAX) : intValue n = some n := by
  simp [intValue, h]

theorem bufferSizeInt_of_fits (W H : Nat) (hfit : W * H * 3 ≤ INT_MAX) :
    bufferSizeInt W H = some (W * H * 3) := by
  have h1 : W * H ≤ INT_MAX := le_trans (Nat.le_mul_of_pos_right _ (by decide)) hfit
  simp [bufferSizeInt, intMul, intValue_of_le _ h1, intValue_of_le _ hfit]

theorem pixelIndexInt_of_fits (W H ix iy k : Nat) (hfit : W * H * 3 ≤ INT_MAX)
    (hx : ix < W) (hy : iy < H) (hk : k < 3) :
    pixelIndexInt W ix iy k = some ((iy * W + ix) * 3 + k) := by
  have hlt := pixel_index_lt W H ix iy k hx hy hk
  have h4 : (iy * W + ix) * 3 + k ≤ INT_MAX := by omega
  have h3 : (iy * W + ix) * 3 ≤ INT_MAX := by omega
  have h2 : iy * W + ix ≤ INT_MAX := by omega
  have h1 : iy * W ≤ INT_MAX := by omega
  simp [pixelIndexInt, intMul, intAdd, intValue_of_le _ h1, intValue_of_le _ h2,
    intValue_of_le _ h3, intValue_of_le _ h4]

/-- C19 as stated fails for large images: for `Width = Height = 32768` the `int`
expression `Width * Height * 3` (3221225472) exceeds `INT_MAX`, and so does the index
expression `(y * Width + x) * 3` of the last pixel `(32767, 32767)`: both are signed
overflows, so no length is set and no index below it is computed. -/
theorem pixel_writes_in_bounds_disjoint_counterexample :
    32768 * 32768 * 3 > INT_MAX ∧
    bufferSizeInt 32768 32768 = none ∧
    pixelIndexInt 32768 32767 32767 0 = none := by
  decide

/-- C19 (amended): for every `Width`, `Height` with `Width * Height * 3 <= INT_MAX` and
every pixel `(ix, iy)` with `ix < Width`, `iy < Height`: the `int` expressions
`Width * Height * 3` and `(iy * Width + ix) * 3 + k`, `k < 3`, do not overflow; the three
indices are below the length `Width * Height * 3` that `render` gives the buffer by
`resize`; `ImagePlane::set` (both files) writes the three channels at exactly these indices
and leaves every other entry as it was; and two different triples `(ix, iy, k)` never give
the same index. -/
theorem pixel_writes_in_bounds_disjoint {F : Type} [LinearOrderedField F] (W H : Nat)
    (hfit : W * H * 3 ≤ INT_MAX) :
    bufferSizeInt W H = some (W * H * 3) ∧
    (∀ (img : List F) (ix iy k : Nat), ix < W → iy < H → k < 3 →
      pixelIndexInt W ix iy k = some ((iy * W + ix) * 3 + k) ∧
      (iy * W + ix) * 3 + k < (vectorResize img (W * H * 3) 1).length) ∧
    (∀ (buf : List F) (col : Vec3 F) (ix iy : Nat), buf.length = W * H * 3 →
      ix < W → iy < H →
      hasPixel W (RayTracing.ImagePlane.set W buf ix iy col) ix iy col ∧
      hasPixel W (PhongShading.ImagePlane.set W buf ix iy col) ix iy col ∧
      ∀ j, j ≠ (iy * W + ix) * 3 → j ≠ (iy * W + ix) * 3 + 1 → j ≠ (iy * W + ix) * 3 + 2 →
        (RayTracing.ImagePlane.set W buf ix iy col)[j]? = buf[j]? ∧
        (PhongShading.ImagePlane.set W buf ix iy col)[j]? = buf[j]?) ∧
    (∀ ix iy k jx jy l : Nat, ix < W → iy < H → k < 3 → jx < W → jy < H → l < 3 →
      (iy * W + ix) * 3 + k = (jy * W + jx) * 3 + l → ix = jx ∧ iy = jy ∧ k = l) := by
  refine ⟨bufferSizeInt_of_fits W H hfit, fun img ix iy k hx hy hk => ⟨?_, ?_⟩,
    fun buf col ix iy hlen hx hy => ?_,
    fun ix iy k jx jy l hx _ hk hjx _ hl h => pixel_index_inj W ix iy k jx jy l hx hjx hk hl h⟩
  · exact pixelIndexInt_of_fits W H ix iy k hfit hx hy hk
  · rw [vectorResize_length]
    exact pixel_index_lt W H ix iy k hx hy hk
  · have hb : (iy * W + ix) * 3 + 2 < buf.length := by
      rw [hlen]
      exact pixel_index_lt W H ix iy 2 hx hy (by omega)
    have hself := RayTracing.ImagePlane.set_hasPixel_self W buf ix iy col hb
    exact ⟨hself, hself, fun j h0 h1 h2 =>
      ⟨RayTracing.ImagePlane.set_getElem_other W buf ix iy j col h0 h1 h2,
        RayTracing.ImagePlane.set_getElem_other W buf ix iy j col h0 h1 h2⟩⟩

/-- C19, an instance of `pixel_writes_in_bounds_disjoint`: a 512 x 256 image fits in `int`,
the last index of its last pixel `(511, 255)` is computed without overflow and is below the
length of the resized buffer, and the index of channel 0 of pixel `(0, 1)` differs from the
index of channel 2 of pixel `(511, 0)`. -/
theorem pixel_writes_in_bounds_disjoint_witness :
    512 * 256 * 3 ≤ INT_MAX ∧
    pixelIndexInt 512 511 255 2 = some ((255 * 512 + 511) * 3 + 2) ∧
    (255 * 512 + 511) * 3 + 2 < (vectorResize ([] : List ℝ) (512 * 256 * 3) 1).length ∧
    (1 * 512 + 0) * 3 + 0 ≠ (0 * 512 + 511) * 3 + 2 := by
  have hfit : 512 * 256 * 3 ≤ INT_MAX := by decide
  have h := @pixel_writes_in_bounds_disjoint ℝ _ 512 256 hfit
  exact ⟨hfit, (h.2.1 [] 511 255 2 (by decide) (by decide) (by decide)).1,
    (h.2.1 [] 511 255 2 (by decide) (by decide) (by decide)).2,
    fun heq => absurd (h.2.2.2 0 1 0 511 0 2 (by decide) (by decide) (by decide) (by decide)
      (by decide) (by decide) heq).1 (by decide)⟩

/-- C13 as stated fails for large images: for `Width = Height = 32768` the `int`
expression `Width * Height * 3` of `OutputImage.resize(...)` is 3221225472, above `INT_MAX`:
a signed overflow, after which `render` (either file) has no defined buffer, let alone one
of length `Width * Height * 3`. -/
theorem render_rebuilds_buffer_counterexample :
    32768 * 32768 * 3 > INT_MAX ∧
    bufferSizeInt 32768 32768 = none ∧
    RayTracing.renderInt Real.sqrt 32768 32768 [] = none ∧
    PhongShading.renderInt Real.sqrt Real.rpow 32768 32768 [] = none := by
  have h : bufferSizeInt 32768 32768 = none := by decide
  exact ⟨by decide, h, by simp [RayTracing.renderInt, h],
    by simp [PhongShading.renderInt, h]⟩

/-- C13 (amended): for every `Width`, `Height` with `Width * Height * 3 <= INT_MAX` and
every prior content and length of `OutputImage`, the `int` expressions of `render()` and
`ImagePlane::set` (both files) do not overflow, and after `render()` the buffer has length
exactly `Width * Height * 3` and, for every pixel
`(ix, iy)` with `ix < Width`, `iy < Height`, the entries at the indices
`(iy * Width + ix) * 3 + 0, 1, 2` are the R, G, B components of
`trace(getRay(x(ix), y(iy)), 0, FLT_MAX)` for the scene of `render`, with
`x(ix) = 0.2 * (ix + 0.5) / Width - 0.1` and `y(iy) = 0.2 * (iy + 0.5) / Height - 0.1`;
hence the result is the same for every prior buffer. -/
theorem render_rebuilds_buffer {F : Type} [LinearOrderedField F] (sqrt : F → F)
    (pow : F → F → F) (W H : Nat) (img : List F) (hfit : W * H * 3 ≤ INT_MAX) :
    (bufferSizeInt W H = some (W * H * 3) ∧
      ∀ ix iy k : Nat, ix < W → iy < H → k < 3 →
        pixelIndexInt W ix iy k = some ((iy * W + ix) * 3 + k)) ∧
    (∃ out : List F, RayTracing.renderInt sqrt W H img = some out ∧
      out.length = W * H * 3 ∧
      (∀ ix iy : Nat, ix < W → iy < H →
        hasPixel W out ix iy
          (RayTracing.Scene.trace sqrt
            ⟨RayTracing.sceneSurfaces sqrt,
              RayTracing.Camera.new sqrt ⟨0, 0, 0⟩ ⟨0, 0, -1⟩ (1 / 10)⟩
            ((RayTracing.Camera.new sqrt ⟨0, 0, 0⟩ ⟨0, 0, -1⟩ (1 / 10)).getRay sqrt
              ((1 / 5 * ((ix : F) + 1 / 2)) / (W : F) - 1 / 10)
              ((1 / 5 * ((iy : F) + 1 / 2)) / (H : F) - 1 / 10))
            0 FLT_MAX)) ∧
      ∀ img' : List F, RayTracing.renderInt sqrt W H img' = some out) ∧
    (∃ out : List F, PhongShading.renderInt sqrt pow W H img = some out ∧
      out.length = W * H * 3 ∧
      (∀ ix iy : Nat, ix < W → iy < H → ∃ col : Vec3 F,
        PhongShading.Scene.trace sqrt pow
            ⟨PhongShading.sceneSurfaces sqrt,
              PhongShading.Camera.new sqrt ⟨0, 0, 0⟩ ⟨0, 0, -1⟩ (1 / 10),
              PhongShading.sceneLights⟩
            ((PhongShading.Camera.new sqrt ⟨0, 0, 0⟩ ⟨0, 0, -1⟩ (1 / 10)).getRay sqrt
              ((1 / 5 * ((ix : F) + 1 / 2)) / (W : F) - 1 / 10)
              ((1 / 5 * ((iy : F) + 1 / 2)) / (H : F) - 1 / 10))
            0 FLT_MAX = some col ∧
        hasPixel W out ix iy col) ∧
      ∀ img' : List F, PhongShading.renderInt sqrt pow W H img' = some out) := by
  have hsize := bufferSizeInt_of_fits W H hfit
  have hflat : ∀ i : List F,
      RayTracing.renderInt sqrt W H i = some (RayTracing.render sqrt W H i) := by
    intro i
    simp [RayTracing.renderInt, hsize]
  have hphong : ∀ i : List F,
      PhongShading.renderInt sqrt pow W H i = PhongShading.render sqrt pow W H i := by
    intro i
    simp [PhongShading.renderInt, hsize]
  refine ⟨⟨hsize, fun ix iy k hx hy hk => pixelIndexInt_of_fits W H ix iy k hfit hx hy hk⟩,
    ?_, ?_⟩
  · obtain ⟨hlen, hpix⟩ := RayTracing.renderScene_flat_spec sqrt
      (RayTracing.sceneSurfaces sqrt) W H img
    refine ⟨_, hflat img, hlen, hpix, fun img' => ?_⟩
    obtain ⟨hlen', hpix'⟩ := RayTracing.renderScene_flat_spec sqrt
      (RayTracing.sceneSurfaces sqrt) W H img'
    rw [hflat img']
    exact congrArg some (eq_of_hasPixel_all W H _ _ _ hlen' hlen hpix' hpix)
  · obtain ⟨out, hout, hlen, hpix⟩ := PhongShading.renderScene_phong_spec sqrt pow
      (PhongShading.sceneSurfaces sqrt) ⟨⟨-4, 4, -3⟩, ⟨1, 1, 1⟩⟩ [] W H img
    refine ⟨out, (hphong img).trans hout, hlen, hpix, fun img' => ?_⟩
    obtain ⟨out', hout', hlen', hpix'⟩ := PhongShading.renderScene_phong_spec sqrt pow
      (PhongShading.sceneSurfaces sqrt) ⟨⟨-4, 4, -3⟩, ⟨1, 1, 1⟩⟩ [] W H img'
    have heq : out' = out := by
      apply eq_of_hasPixel_all W H
        (fun ix iy => (PhongShading.pixelColor sqrt pow
          ⟨PhongShading.sceneSurfaces sqrt,
            PhongShading.Camera.new sqrt ⟨0, 0, 0⟩ ⟨0, 0, -1⟩ (1 / 10),
            [⟨⟨-4, 4, -3⟩, ⟨1, 1, 1⟩⟩]⟩ W H ix iy).getD ⟨0, 0, 0⟩) out' out hlen' hlen
      · intro ix iy hix hiy
        obtain ⟨col, hc, hp⟩ := hpix' ix iy hix hiy
        rw [hc]
        exact hp
      · intro ix iy hix hiy
        obtain ⟨col, hc, hp⟩ := hpix ix iy hix hiy
        rw [hc]
        exact hp
    rw [hphong img', ← heq]
    exact hout'

/-- C13, an instance of `render_rebuilds_buffer`: 256 x 256 fits in `int`, and re-rendering
at 256 x 256 over a buffer left from a 512 x 512 pass gives a buffer of exactly
`256 * 256 * 3` entries, the same as rendering over the empty buffer. -/
theorem render_rebuilds_buffer_witness :
    256 * 256 * 3 ≤ INT_MAX ∧
    ∃ out : List ℝ,
      RayTracing.renderInt Real.sqrt 256 256 (List.replicate (512 * 512 * 3) 7) = some out ∧
      out.length = 256 * 256 * 3 ∧
      RayTracing.renderInt Real.sqrt 256 256 [] = some out := by
  have hfit : 256 * 256 * 3 ≤ INT_MAX := by decide
  obtain ⟨out, h1, h2, _, h4⟩ := (render_rebuilds_buffer Real.sqrt Real.rpow 256 256
    (List.replicate (512 * 512 * 3) 7) hfit).2.1
  exact ⟨hfit, out, h1, h2, h4 []⟩

/-! ## The same claims in the arithmetic of the program -/

/-- Known binary32 values, as a check of `Binary32`: `0.1f`, `1/3`, `sqrt(2)`, the ties
`2^24 + 1` and `2^24 + 3`, overflow of `FLT_MAX * 2`, the least subnormal number, and
`0 * inf`. -/
theorem binary32_known_values :
    (1 / 10 : Binary32.Float32) = .fin (13421773 / 134217728) ∧
    (1 / 3 : Binary32.Float32) = .fin (11184811 / 33554432) ∧
    Binary32.Float32.sqrt 2 = .fin (11863283 / 8388608) ∧
    Binary32.rnd 16777217 = .fin 16777216 ∧
    Binary32.rnd 16777219 = .fin 16777220 ∧
    Binary32.FLT_MAX * 2 = .inf false ∧
    Binary32.rnd (3 / 2 ^ 151) = .fin (1 / 2 ^ 149) ∧
    Binary32.rnd (1 / 2 ^ 150) = .fin 0 ∧
    (0 : Binary32.Float32) * .inf false = .nan := by
  decide!

/-- C6 as stated fails in `float`: with `ks = (0, 0, 0)`, shininess 200, white light,
`n = l = (0, 1, 0)` (so `dot(n, l) = 1`) and `v = (0, 2, 0)`, the specular factor is
`pow(2, 200)`, which overflows to `+inf`, and `0 * inf` is NaN: `getColor` returns NaN in
every channel, not `ka * light.color + kd * light.color = (1.25, 1.25, 1.25)`. -/
theorem getColor_facing_light_counterexample :
    Binary32.Vec3.dot ⟨.fin 0, .fin 1, .fin 0⟩ ⟨.fin 0, .fin 1, .fin 0⟩ = .fin 1 ∧
    Binary32.Float32.pow (.fin 2) (.fin 200) = .inf false ∧
    Binary32.PhongShading.Surface.getColor
        (.plane ⟨⟨.fin 0, .fin 1, .fin 0⟩, .fin (-2),
          ⟨⟨.fin (1 / 4), .fin (1 / 4), .fin (1 / 4)⟩, ⟨.fin 1, .fin 1, .fin 1⟩,
            ⟨.fin 0, .fin 0, .fin 0⟩, .fin 200⟩⟩)
        ⟨.fin 0, .fin 1, .fin 0⟩ ⟨.fin 0, .fin 1, .fin 0⟩ ⟨.fin 0, .fin 2, .fin 0⟩
        ⟨⟨.fin (-4), .fin 4, .fin (-3)⟩, ⟨.fin 1, .fin 1, .fin 1⟩⟩ =
      ⟨.nan, .nan, .nan⟩ ∧
    ((⟨.fin (1 / 4), .fin (1 / 4), .fin (1 / 4)⟩ : Vec3 Binary32.Float32) * ⟨.fin 1, .fin 1, .fin 1⟩
        + (⟨.fin 1, .fin 1, .fin 1⟩ : Vec3 Binary32.Float32) * ⟨.fin 1, .fin 1, .fin 1⟩) =
      ⟨.fin (5 / 4), .fin (5 / 4), .fin (5 / 4)⟩ := by
  decide!

end CGOpenGL
